import Mathlib

/-!
# CertiChain chaincodes: document registry with audit trail

A shallow embedding of the two Hyperledger Fabric chaincodes of the repository,
`publicdocument/chaincode_public.go` and `privatedocument/chaincode_private.go`.

* A Go string is a sequence of bytes, not necessarily valid UTF-8. Keys,
  arguments and struct fields are Go strings; they are compared bytewise, as Go
  and the ledger do. A string literal of the source is the UTF-8 encoding of its
  text.
* The ledger is a list of key/value pairs; `PutState` rewrites or inserts one
  key, `GetState` reads one key, `GetStateByRange` keeps the pairs whose key is
  in the half-open range, in stored order.
* `encoding/json` is modelled on decoded JSON text: stored bytes are either not
  JSON at all, a JSON value that is not an object, or an object with its members
  in order. The strings of a decoded JSON text are valid Unicode text. Encoding a
  Go struct follows `json.Marshal`: every byte of a field that is not part of a
  valid UTF-8 encoding is written as U+FFFD. Decoding into a Go struct follows
  `json.Unmarshal`: members are matched to fields by name up to case folding,
  unknown members are dropped, a `null` member leaves the field alone, and a
  member of the wrong type is reported as an error after the remaining members
  have been decoded.
* Times follow package `time`: `time.Unix` and `Format` compute on 64-bit
  seconds that wrap around, the printed zone is the zone of the executing peer.
* Every contract operation takes the stub (transaction id, commit timestamp,
  zone of the executing peer, write failures of the store) and the ledger and
  returns the Go error together with the ledger as left by the writes it issued.
-/

namespace CertiChain

/-! ## Go strings -/

/-- A Go string: a sequence of bytes, not necessarily valid UTF-8. A number above
255 in the sequence is no byte of any Go string; the encoder never produces one, and
the decoder treats it like every byte that begins no valid encoding. -/
structure GoString where
  bytes : List Nat
  deriving DecidableEq, Repr

/-- UTF-8 encoding of one code point. -/
def utf8Encode (c : Char) : List Nat :=
  if c.toNat < 0x80 then [c.toNat]
  else if c.toNat < 0x800 then [0xC0 + c.toNat / 64, 0x80 + c.toNat % 64]
  else if c.toNat < 0x10000 then
    [0xE0 + c.toNat / 4096, 0x80 + c.toNat / 64 % 64, 0x80 + c.toNat % 64]
  else
    [0xF0 + c.toNat / 262144, 0x80 + c.toNat / 4096 % 64, 0x80 + c.toNat / 64 % 64,
      0x80 + c.toNat % 64]

/-- UTF-8 encoding of a sequence of code points. -/
def encodeChars : List Char → List Nat
  | [] => []
  | c :: cs => utf8Encode c ++ encodeChars cs

/-- The Go string that holds a text: its UTF-8 encoding. String literals of the
source are such strings. -/
def GoString.ofString (s : String) : GoString := ⟨encodeChars s.data⟩

instance : Coe String GoString := ⟨GoString.ofString⟩

instance : Append GoString := ⟨fun a b => ⟨a.bytes ++ b.bytes⟩⟩

/-- Go `utf8.DecodeRune` at the head of a byte sequence: the code point and the
width of its encoding, or none when the first byte does not begin a valid
encoding (Go returns `RuneError` with width 1). -/
def decodeHead : List Nat → Option (Char × Nat)
  | [] => none
  | b0 :: rest =>
    if b0 < 0x80 then some (Char.ofNat b0, 1)
    else if 0xC2 ≤ b0 ∧ b0 ≤ 0xDF then
      match rest with
      | b1 :: _ =>
        if 0x80 ≤ b1 ∧ b1 ≤ 0xBF then some (Char.ofNat ((b0 - 0xC0) * 64 + (b1 - 0x80)), 2)
        else none
      | _ => none
    else if 0xE0 ≤ b0 ∧ b0 ≤ 0xEF then
      match rest with
      | b1 :: b2 :: _ =>
        if (if b0 = 0xE0 then 0xA0 else 0x80) ≤ b1 ∧ b1 ≤ (if b0 = 0xED then 0x9F else 0xBF)
            ∧ 0x80 ≤ b2 ∧ b2 ≤ 0xBF then
          some (Char.ofNat ((b0 - 0xE0) * 4096 + (b1 - 0x80) * 64 + (b2 - 0x80)), 3)
        else none
      | _ => none
    else if 0xF0 ≤ b0 ∧ b0 ≤ 0xF4 then
      match rest with
      | b1 :: b2 :: b3 :: _ =>
        if (if b0 = 0xF0 then 0x90 else 0x80) ≤ b1 ∧ b1 ≤ (if b0 = 0xF4 then 0x8F else 0xBF)
            ∧ 0x80 ≤ b2 ∧ b2 ≤ 0xBF ∧ 0x80 ≤ b3 ∧ b3 ≤ 0xBF then
          some (Char.ofNat ((b0 - 0xF0) * 262144 + (b1 - 0x80) * 4096 + (b2 - 0x80) * 64
            + (b3 - 0x80)), 4)
        else none
      | _ => none
    else none

/-- Decoding of a byte sequence and of its next three suffixes, computed from
the right: the first component is the decoding of the whole sequence, the others
those of the sequence without its first one, two and three bytes. At each byte
`decodeHead` gives the code point and how many bytes it takes; a byte that
begins no valid encoding gives U+FFFD and takes one byte. -/
def decodeSuffixes : List Nat → List Char × List Char × List Char × List Char
  | [] => ([], [], [], [])
  | b0 :: t0 =>
    let r := decodeSuffixes t0
    let here :=
      match decodeHead (b0 :: t0) with
      | some (c, w) =>
        c :: (if w = 2 then r.2.1 else if w = 3 then r.2.2.1 else if w = 4 then r.2.2.2
          else r.1)
      | none => Char.ofNat 0xFFFD :: r.1
    (here, r.1, r.2.1, r.2.2.1)

/-- The text `json.Marshal` writes for the bytes of a Go string: the code points
of the valid encodings, and U+FFFD for every byte that is not part of one. -/
def decodeText (bs : List Nat) : List Char := (decodeSuffixes bs).1

/-- The JSON string `json.Marshal` writes for a Go string. -/
def GoString.toText (s : GoString) : String := String.mk (decodeText s.bytes)

/-- A Go string after `json.Marshal` and `json.Unmarshal`: every byte that is not
part of a valid UTF-8 encoding has become U+FFFD. -/
def GoString.viaJSON (s : GoString) : GoString := GoString.ofString s.toText

/-- Go `utf8.ValidString`: the string is unchanged by JSON encoding. -/
def GoString.ValidUTF8 (s : GoString) : Prop := s.viaJSON = s

instance (s : GoString) : Decidable s.ValidUTF8 := by
  unfold GoString.ValidUTF8
  infer_instance

/-- Lexicographic comparison of two byte sequences: the order Go and the ledger
use on keys. -/
def ltBytes : List Nat → List Nat → Bool
  | [], [] => false
  | [], _ :: _ => true
  | _ :: _, [] => false
  | a :: as, b :: bs =>
    if a < b then true
    else if b < a then false
    else ltBytes as bs

/-- Go `a < b` on strings. -/
def strLt (a b : GoString) : Bool := ltBytes a.bytes b.bytes

/-- Go `a <= b` on strings. -/
def strLe (a b : GoString) : Bool := !strLt b a

/-! ## JSON as stored on the ledger -/

/-- A decoded JSON value as far as a struct of Go strings can tell values apart:
`null`, a string (decoded JSON strings are valid Unicode text), or anything else
(number, boolean, array, object), tagged to keep different values different. -/
inductive JVal where
  | null
  | str (s : String)
  | other (tag : Nat)
  deriving DecidableEq, Repr

/-- The bytes stored under a key, by what `json.Unmarshal` sees in them. -/
inductive Bytes where
  /-- bytes that are not syntactically valid JSON -/
  | invalid (tag : Nat)
  /-- a valid JSON text whose top-level value is not an object -/
  | value (v : JVal)
  /-- a JSON object, members in the order they are written -/
  | object (members : List (String × JVal))
  deriving DecidableEq, Repr

/-- Case folding of one code point as `encoding/json` does it for member names:
upper case ASCII letters, the Kelvin sign and the long s fold to the lower case
ASCII letter. -/
def foldRune (c : Char) : Nat :=
  if 65 ≤ c.toNat ∧ c.toNat ≤ 90 then c.toNat + 32
  else if c.toNat = 0x212A then 107
  else if c.toNat = 0x17F then 115
  else c.toNat

/-- Whether a JSON member name selects the struct field with the given (ASCII)
JSON name: exact match, or equal after case folding. -/
def nameMatches (field key : String) : Bool :=
  key = field || key.data.map foldRune = field.data.map foldRune

/-- Outcome of decoding one object member into a string field. -/
inductive Slot where
  | keep
  | set (s : String)
  | typeError
  deriving DecidableEq, Repr

/-- What a member value does to a Go string field. -/
def slotOf : JVal → Slot
  | .null => .keep
  | .str s => .set s
  | .other _ => .typeError

/-! ## The ledger -/

/-- One key space of the ledger: the world state of the public chaincode, or one
private data collection. -/
abbrev Store := List (GoString × Bytes)

/-- Read one key: the value of `GetState`, `none` standing for Go `nil`. -/
def Store.get : Store → GoString → Option Bytes
  | [], _ => none
  | (k, v) :: rest, key => if k = key then some v else Store.get rest key

/-- Write one key, keeping the keys in order: an existing key is rewritten in
place, a new key is inserted before the first greater key. -/
def Store.put : Store → GoString → Bytes → Store
  | [], key, val => [(key, val)]
  | (k, v) :: rest, key, val =>
    if k = key then (key, val) :: rest
    else if strLt key k then (key, val) :: (k, v) :: rest
    else (k, v) :: Store.put rest key val

/-- Range scan: the pairs with `startKey <= key < endKey` in stored order; an
empty bound is no bound. -/
def Store.range (s : Store) (startKey endKey : GoString) : List (GoString × Bytes) :=
  s.filter fun kv =>
    (startKey = "" || strLe startKey kv.1) && (endKey = "" || strLt kv.1 endKey)

/-- The transaction context handed to the chaincode: transaction id, commit
timestamp (`GetTxTimestamp`: seconds, a Go `int64`, and nanos, a Go `int32`), the
offset east of UTC in seconds of the zone the executing peer runs in, and the
writes the store refuses (collection name and key to error). -/
structure Stub where
  txID : GoString
  seconds : Int
  nanos : Int
  zoneOffset : Int
  putErr : String → GoString → Option String

/-- A Go `error` value; `none` is `nil`. -/
abbrev GoError := Option String

/-- Stub `PutState` and `PutPrivateData`: the store either refuses the write and
the ledger is as before, or the key is written. -/
def putIn (stub : Stub) (collection : String) (s : Store) (key : GoString) (val : Bytes) :
    GoError × Store :=
  match stub.putErr collection key with
  | some e => (some e, s)
  | none => (none, s.put key val)

/-! ## Decoding JSON objects into Go structs -/

/-- Decode the members of a JSON object into a struct, first to last. `setter`
gives, for a member name, the assignment to the field it selects (none for an
unknown member). The flag is false when some member had the wrong type. -/
def decodeObject {α : Type} (setter : String → Option (String → α → α)) :
    List (String × JVal) → α → α × Bool
  | [], acc => (acc, true)
  | (k, v) :: rest, acc =>
    match setter k with
    | none => decodeObject setter rest acc
    | some assign =>
      match slotOf v with
      | .keep => decodeObject setter rest acc
      | .set s => decodeObject setter rest (assign s acc)
      | .typeError => ((decodeObject setter rest acc).1, false)

/-- Go `json.Unmarshal(data, &x)` with `x` a zero struct of string fields:
the struct left in `x` and whether the returned error is nil. -/
def unmarshal {α : Type} (setter : String → Option (String → α → α)) (zero : α) :
    Bytes → α × Bool
  | .invalid _ => (zero, false)
  | .value .null => (zero, true)
  | .value _ => (zero, false)
  | .object ms => decodeObject setter ms zero

/-! ## Time: `time.Unix`, `Format(time.RFC3339)`, `time.Parse(time.RFC3339, _)` -/

/-- An instant, in nanoseconds since the Unix epoch. -/
abbrev Instant := Int

/-- The zero `time.Time`, 0001-01-01T00:00:00Z: the value `time.Parse` returns
together with an error. -/
def zeroInstant : Instant := -62135596800 * 1000000000

/-- Days from 1970-01-01 to the given proleptic Gregorian date. -/
def daysFromCivil (y m d : Int) : Int :=
  let y1 := if m ≤ 2 then y - 1 else y
  let era := y1 / 400
  let yoe := y1 - era * 400
  let mp := (m + 9) % 12
  let doy := (153 * mp + 2) / 5 + d - 1
  let doe := yoe * 365 + yoe / 4 - yoe / 100 + doy
  era * 146097 + doe - 719468

/-- The proleptic Gregorian date (year, month, day) of a day count from
1970-01-01. -/
def civilFromDays (z0 : Int) : Int × Int × Int :=
  let z := z0 + 719468
  let era := z / 146097
  let doe := z - era * 146097
  let yoe := (doe - doe / 1460 + doe / 36524 - doe / 146096) / 365
  let doy := doe - (365 * yoe + yoe / 4 - yoe / 100)
  let mp := (5 * doy + 2) / 153
  let d := doy - (153 * mp + 2) / 5 + 1
  let m := if mp < 10 then mp + 3 else mp - 9
  let y := yoe + era * 400
  (if m ≤ 2 then y + 1 else y, m, d)

/-- Number of days of a month. -/
def daysIn (y m : Int) : Int :=
  if m = 2 then (if y % 4 = 0 ∧ (y % 100 ≠ 0 ∨ y % 400 = 0) then 29 else 28)
  else if m = 4 ∨ m = 6 ∨ m = 9 ∨ m = 11 then 30
  else 31

/-- A Go `int64` holding the integer `x`: the value after wrap-around. -/
def wrap64 (x : Int) : Int :=
  (x + 9223372036854775808) % 18446744073709551616 - 9223372036854775808

/-- Go `time.Unix(sec, nsec)` as an instant: whole seconds of `nsec` are carried
into `sec` in 64-bit arithmetic, which wraps around. -/
def timeUnix (sec nsec : Int) : Instant :=
  wrap64 (sec + nsec / 1000000000) * 1000000000 + nsec % 1000000000

/-- Seconds from the zero of the absolute time scale of package `time`
(1 January of year -292277022399) to the Unix epoch. -/
def unixToAbsolute : Int := 9223372028715321600

/-- The decimal digit for `n % 10`. -/
def digitChar (n : Nat) : Char := Char.ofNat (48 + n % 10)

/-- Two decimal digits. -/
def pad2 (n : Nat) : List Char := [digitChar (n / 10), digitChar n]

/-- Decimal digits of `n`, zero padded to at least four. -/
def pad4 (n : Nat) : List Char :=
  let ds := Nat.toDigits 10 n
  List.replicate (4 - ds.length) '0' ++ ds

/-- The zone suffix of layout `Z07:00`: `Z` for offset zero, otherwise sign,
hours and minutes of the offset. -/
def formatZone (offset : Int) : List Char :=
  if offset = 0 then ['Z']
  else
    let mins := offset.natAbs / 60
    (if offset ≤ -60 then '-' else '+') :: (pad2 (mins / 60) ++ ':' :: pad2 (mins % 60))

/-- Go `t.Format(time.RFC3339)` for the instant `t` shown in a zone `offset`
seconds east of UTC: seconds precision, fractions dropped. As in Go, the date
and clock are read off the seconds since the absolute zero, an unsigned 64-bit
number that wraps around. -/
def formatRFC3339 (t : Instant) (offset : Int) : String :=
  let abs := (t / 1000000000 + offset + unixToAbsolute) % 18446744073709551616
  let loc := abs - unixToAbsolute
  let days := loc / 86400
  let sod := (loc % 86400).toNat
  let ymd := civilFromDays days
  let year := (if ymd.1 < 0 then ['-'] else []) ++ pad4 ymd.1.natAbs
  String.mk (year ++ '-' :: pad2 ymd.2.1.toNat ++ '-' :: pad2 ymd.2.2.toNat
    ++ 'T' :: pad2 (sod / 3600) ++ ':' :: pad2 (sod / 60 % 60) ++ ':' :: pad2 (sod % 60)
    ++ formatZone offset)

/-- Value of a decimal digit. -/
def digitVal (c : Char) : Option Nat :=
  if 48 ≤ c.toNat ∧ c.toNat ≤ 57 then some (c.toNat - 48) else none

/-- Read exactly two digits. -/
def num2 : List Char → Option (Nat × List Char)
  | a :: b :: rest =>
    match digitVal a, digitVal b with
    | some x, some y => some (10 * x + y, rest)
    | _, _ => none
  | _ => none

/-- Read one or two digits (the hour of layout `15`). -/
def num12 : List Char → Option (Nat × List Char)
  | [] => none
  | a :: rest =>
    match digitVal a with
    | none => none
    | some x =>
      match rest with
      | b :: rest2 =>
        match digitVal b with
        | some y => some (10 * x + y, rest2)
        | none => some (x, rest)
      | [] => some (x, rest)

/-- Read exactly four digits (the year). -/
def num4 (cs : List Char) : Option (Nat × List Char) :=
  match num2 cs with
  | none => none
  | some (hi, rest) =>
    match num2 rest with
    | none => none
    | some (lo, rest2) => some (100 * hi + lo, rest2)

/-- Consume one given character. -/
def expect (c : Char) : List Char → Option (List Char)
  | [] => none
  | a :: rest => if a = c then some rest else none

/-- Value of a digit sequence read as the first nine decimals of a second. -/
def nanosOf (ds : List Nat) : Nat :=
  ((ds.take 9).foldl (fun acc d => 10 * acc + d) 0) * 10 ^ (9 - (ds.take 9).length)

/-- The leading digits of a character sequence, and what follows them. -/
def spanDigits : List Char → List Nat × List Char
  | [] => ([], [])
  | c :: rest =>
    match digitVal c with
    | some d => (d :: (spanDigits rest).1, (spanDigits rest).2)
    | none => ([], c :: rest)

/-- An optional fraction of a second after the seconds field: a period or comma
followed by at least one digit. -/
def parseFraction : List Char → Nat × List Char
  | sep :: d :: rest =>
    if (sep = '.' ∨ sep = ',') ∧ (digitVal d).isSome then
      (nanosOf (spanDigits (d :: rest)).1, (spanDigits (d :: rest)).2)
    else (0, sep :: d :: rest)
  | cs => (0, cs)

/-- The zone of layout `Z07:00`, in seconds east of UTC; nothing may follow. -/
def parseZone : List Char → Option Int
  | [z] => if z = 'Z' then some 0 else none
  | [sg, h1, h2, colon, m1, m2] =>
    match num2 [h1, h2], num2 [m1, m2] with
    | some (hh, _), some (mm, _) =>
      if colon ≠ ':' ∨ hh > 24 ∨ mm > 60 then none
      else if sg = '+' then some (((hh * 60 + mm) * 60 : Nat) : Int)
      else if sg = '-' then some (-(((hh * 60 + mm) * 60 : Nat) : Int))
      else none
    | _, _ => none
  | _ => none

/-- The date `2006-01-02` at the head of a character sequence: year, month and
day as read, and what follows. -/
def parseDate (cs : List Char) : Option ((Nat × Nat × Nat) × List Char) := do
  let (year, r1) ← num4 cs
  let r2 ← expect '-' r1
  let (month, r3) ← num2 r2
  let r4 ← expect '-' r3
  let (day, r5) ← num2 r4
  some ((year, month, day), r5)

/-- The clock `15:04:05` at the head of a character sequence: hour, minute and
second as read, and what follows. -/
def parseClock (cs : List Char) : Option ((Nat × Nat × Nat) × List Char) := do
  let (hour, r7) ← num12 cs
  let r8 ← expect ':' r7
  let (minute, r9) ← num2 r8
  let r10 ← expect ':' r9
  let (sec, r11) ← num2 r10
  some ((hour, minute, sec), r11)

/-- The layout `2006-01-02T15:04:05Z07:00` read off a sequence of characters: the
instant, or none where the sequence does not match or a field is out of range. -/
def parseLayout (cs : List Char) : Option Instant := do
  let ((year, month, day), r5) ← parseDate cs
  let r6 ← expect 'T' r5
  let ((hour, minute, sec), r11) ← parseClock r6
  let (nsec, r12) := parseFraction r11
  let zone ← parseZone r12
  if month < 1 ∨ 12 < month ∨ day < 1 ∨ daysIn year month < day
      ∨ 24 ≤ hour ∨ 60 ≤ minute ∨ 60 ≤ sec then none
  else
    some (((daysFromCivil year month day * 86400 + hour * 3600 + minute * 60 + sec) - zone)
      * 1000000000 + nsec)

/-- Go `time.Parse(time.RFC3339, s)`: the instant, or none where Go returns an
error. The parser reads the bytes of the string one by one. -/
def parseRFC3339 (s : GoString) : Option Instant := parseLayout (s.bytes.map Char.ofNat)

/-- The `Time` left in `t` by `t, _ := time.Parse(time.RFC3339, s)`. -/
def parseOrZero (s : GoString) : Instant := (parseRFC3339 s).getD zeroInstant

/-- The audit timestamp of a transaction,
`time.Unix(ts.Seconds, int64(ts.Nanos)).Format(time.RFC3339)`: the commit
timestamp shown in the zone of the executing peer. -/
def Stub.timestamp (stub : Stub) : GoString :=
  GoString.ofString (formatRFC3339 (timeUnix stub.seconds stub.nanos) stub.zoneOffset)

/-- A stub for worked examples: transaction `tx` committed at Unix time `sec`,
peer running in UTC, store accepting every write. -/
def stubAt (tx : GoString) (sec : Int) : Stub :=
  { txID := tx, seconds := sec, nanos := 0, zoneOffset := 0, putErr := fun _ _ => none }

/-! ## The public chaincode (`publicdocument/chaincode_public.go`) -/

/-- Go struct `PublicDocument`. -/
structure PublicDocument where
  DocumentID : GoString
  Institution : GoString
  UserID : GoString
  deriving DecidableEq, Repr

/-- Go struct `AuditLog` of the public chaincode. -/
structure AuditLog where
  TxID : GoString
  DocumentID : GoString
  Institution : GoString
  UserID : GoString
  Operation : GoString
  Timestamp : GoString
  deriving DecidableEq, Repr

/-- The zero value of `PublicDocument`. -/
def PublicDocument.zero : PublicDocument := ⟨"", "", ""⟩

/-- The zero value of `AuditLog`. -/
def AuditLog.zero : AuditLog := ⟨"", "", "", "", "", ""⟩

/-- The field of `PublicDocument` a JSON member name selects, by its json tag. -/
def PublicDocument.setter (k : String) :
    Option (String → PublicDocument → PublicDocument) :=
  if nameMatches "documentId" k then some fun s d => { d with DocumentID := GoString.ofString s }
  else if nameMatches "institution" k then some fun s d => { d with Institution := GoString.ofString s }
  else if nameMatches "userId" k then some fun s d => { d with UserID := GoString.ofString s }
  else none

/-- The field of `AuditLog` a JSON member name selects, by its json tag. -/
def AuditLog.setter (k : String) : Option (String → AuditLog → AuditLog) :=
  if nameMatches "txID" k then some fun s d => { d with TxID := GoString.ofString s }
  else if nameMatches "documentId" k then some fun s d => { d with DocumentID := GoString.ofString s }
  else if nameMatches "institution" k then some fun s d => { d with Institution := GoString.ofString s }
  else if nameMatches "userId" k then some fun s d => { d with UserID := GoString.ofString s }
  else if nameMatches "operation" k then some fun s d => { d with Operation := GoString.ofString s }
  else if nameMatches "timestamp" k then some fun s d => { d with Timestamp := GoString.ofString s }
  else none

/-- Go `json.Marshal` of a `PublicDocument`. -/
def PublicDocument.marshal (d : PublicDocument) : Bytes :=
  .object [("documentId", .str d.DocumentID.toText), ("institution", .str d.Institution.toText),
    ("userId", .str d.UserID.toText)]

/-- Go `json.Marshal` of an `AuditLog`. -/
def AuditLog.marshal (l : AuditLog) : Bytes :=
  .object [("txID", .str l.TxID.toText), ("documentId", .str l.DocumentID.toText),
    ("institution", .str l.Institution.toText), ("userId", .str l.UserID.toText),
    ("operation", .str l.Operation.toText), ("timestamp", .str l.Timestamp.toText)]

/-- Go `json.Unmarshal(data, &doc)` for `var doc PublicDocument`. -/
def PublicDocument.unmarshal (data : Bytes) : PublicDocument × Bool :=
  CertiChain.unmarshal PublicDocument.setter PublicDocument.zero data

/-- Go `json.Unmarshal(data, &log)` for `var log AuditLog`. -/
def AuditLog.unmarshal (data : Bytes) : AuditLog × Bool :=
  CertiChain.unmarshal AuditLog.setter AuditLog.zero data

namespace PublicContract

/-- Stub `PutState`: a write to the world state (collection ""). -/
def PutState (stub : Stub) (st : Store) (key : GoString) (val : Bytes) : GoError × Store :=
  putIn stub "" st key val

/-- `RegisterDocument`: store the document under its id, then the audit entry
under `AUDIT_` followed by the transaction id. -/
def RegisterDocument (stub : Stub) (st : Store) (documentId institution userId : GoString) :
    GoError × Store :=
  let doc : PublicDocument :=
    { DocumentID := documentId, Institution := institution, UserID := userId }
  let data := doc.marshal
  match PutState stub st documentId data with
  | (some err, st1) => (some err, st1)
  | (none, st1) =>
    let txID := stub.txID
    let timestamp := stub.timestamp
    let log : AuditLog :=
      { TxID := txID, DocumentID := documentId, Institution := institution,
        UserID := userId, Operation := "create", Timestamp := timestamp }
    let logData := log.marshal
    let logKey := "AUDIT_" ++ txID
    PutState stub st1 logKey logData

/-- `GetDocumentByID`: not found when the key has no value; otherwise whatever
the decoder leaves in the record, the decoding error being dropped. -/
def GetDocumentByID (st : Store) (documentId : GoString) : Except String PublicDocument :=
  match st.get documentId with
  | none => .error "document not found"
  | some data => .ok (PublicDocument.unmarshal data).1

/-- `QueryByInstitution`: scan the whole world state and keep every value that
decodes without error to a record with the given institution. -/
def QueryByInstitution (st : Store) (institution : GoString) :
    Except String (List PublicDocument) :=
  .ok ((st.range "" "").filterMap fun item =>
    let r := PublicDocument.unmarshal item.2
    if r.2 ∧ r.1.Institution = institution then some r.1 else none)

/-- `QueryByUser`: as `QueryByInstitution`, on the user id. -/
def QueryByUser (st : Store) (userId : GoString) : Except String (List PublicDocument) :=
  .ok ((st.range "" "").filterMap fun item =>
    let r := PublicDocument.unmarshal item.2
    if r.2 ∧ r.1.UserID = userId then some r.1 else none)

/-- The body of the loop of `QueryAuditLogs` for one scanned value: the entry
appended to the results, if any. -/
def auditStep (filterType filterValue : GoString) (start stop : Instant) (value : Bytes) :
    Option AuditLog :=
  let r := AuditLog.unmarshal value
  if ¬ r.2 then none
  else
    match parseRFC3339 r.1.Timestamp with
    | none => none
    | some timeParsed =>
      if timeParsed < start ∨ stop < timeParsed then none
      else if filterType = "documentId" then
        (if r.1.DocumentID = filterValue then some r.1 else none)
      else if filterType = "institution" then
        (if r.1.Institution = filterValue then some r.1 else none)
      else if filterType = "userId" then
        (if r.1.UserID = filterValue then some r.1 else none)
      else if filterType = "all" then some r.1
      else none

/-- `QueryAuditLogs`: scan the keys from `AUDIT_` up to `AUDIT_z`. -/
def QueryAuditLogs (st : Store) (filterType filterValue startDate endDate : GoString) :
    Except String (List AuditLog) :=
  let start := parseOrZero startDate
  let stop := parseOrZero endDate
  .ok ((st.range "AUDIT_" "AUDIT_z").filterMap fun item =>
    auditStep filterType filterValue start stop item.2)

end PublicContract

/-! ## The private chaincode (`privatedocument/chaincode_private.go`) -/

/-- Go struct `PrivateDocument`. -/
structure PrivateDocument where
  DocumentID : GoString
  Institution : GoString
  UserID : GoString
  Name : GoString
  Path : GoString
  Hash : GoString
  State : GoString
  deriving DecidableEq, Repr

/-- Go struct `PrivateAuditLog`. -/
structure PrivateAuditLog where
  TxID : GoString
  DocumentID : GoString
  Institution : GoString
  UserID : GoString
  Operation : GoString
  OldState : GoString
  NewState : GoString
  Timestamp : GoString
  deriving DecidableEq, Repr

/-- The zero value of `PrivateDocument`. -/
def PrivateDocument.zero : PrivateDocument := ⟨"", "", "", "", "", "", ""⟩

/-- The zero value of `PrivateAuditLog`. -/
def PrivateAuditLog.zero : PrivateAuditLog := ⟨"", "", "", "", "", "", "", ""⟩

/-- The field of `PrivateDocument` a JSON member name selects, by its json tag. -/
def PrivateDocument.setter (k : String) :
    Option (String → PrivateDocument → PrivateDocument) :=
  if nameMatches "documentId" k then some fun s d => { d with DocumentID := GoString.ofString s }
  else if nameMatches "institution" k then some fun s d => { d with Institution := GoString.ofString s }
  else if nameMatches "userId" k then some fun s d => { d with UserID := GoString.ofString s }
  else if nameMatches "name" k then some fun s d => { d with Name := GoString.ofString s }
  else if nameMatches "path" k then some fun s d => { d with Path := GoString.ofString s }
  else if nameMatches "hash" k then some fun s d => { d with Hash := GoString.ofString s }
  else if nameMatches "state" k then some fun s d => { d with State := GoString.ofString s }
  else none

/-- The field of `PrivateAuditLog` a JSON member name selects, by its json tag. -/
def PrivateAuditLog.setter (k : String) :
    Option (String → PrivateAuditLog → PrivateAuditLog) :=
  if nameMatches "txID" k then some fun s d => { d with TxID := GoString.ofString s }
  else if nameMatches "documentId" k then some fun s d => { d with DocumentID := GoString.ofString s }
  else if nameMatches "institution" k then some fun s d => { d with Institution := GoString.ofString s }
  else if nameMatches "userId" k then some fun s d => { d with UserID := GoString.ofString s }
  else if nameMatches "operation" k then some fun s d => { d with Operation := GoString.ofString s }
  else if nameMatches "oldState" k then some fun s d => { d with OldState := GoString.ofString s }
  else if nameMatches "newState" k then some fun s d => { d with NewState := GoString.ofString s }
  else if nameMatches "timestamp" k then some fun s d => { d with Timestamp := GoString.ofString s }
  else none

/-- Go `json.Marshal` of a `PrivateDocument`. -/
def PrivateDocument.marshal (d : PrivateDocument) : Bytes :=
  .object [("documentId", .str d.DocumentID.toText), ("institution", .str d.Institution.toText),
    ("userId", .str d.UserID.toText), ("name", .str d.Name.toText), ("path", .str d.Path.toText),
    ("hash", .str d.Hash.toText), ("state", .str d.State.toText)]

/-- Go `json.Marshal` of a `PrivateAuditLog`: `oldState` is tagged `omitempty`
and is left out when empty. -/
def PrivateAuditLog.marshal (l : PrivateAuditLog) : Bytes :=
  .object ([("txID", .str l.TxID.toText), ("documentId", .str l.DocumentID.toText),
      ("institution", .str l.Institution.toText), ("userId", .str l.UserID.toText),
      ("operation", .str l.Operation.toText)]
    ++ (if l.OldState = "" then [] else [("oldState", .str l.OldState.toText)])
    ++ [("newState", .str l.NewState.toText), ("timestamp", .str l.Timestamp.toText)])

/-- Go `json.Unmarshal(data, &doc)` for `var doc PrivateDocument`. -/
def PrivateDocument.unmarshal (data : Bytes) : PrivateDocument × Bool :=
  CertiChain.unmarshal PrivateDocument.setter PrivateDocument.zero data

/-- Go `json.Unmarshal(data, &log)` for `var log PrivateAuditLog`. -/
def PrivateAuditLog.unmarshal (data : Bytes) : PrivateAuditLog × Bool :=
  CertiChain.unmarshal PrivateAuditLog.setter PrivateAuditLog.zero data

/-- The private data of the channel: one key space per collection name. -/
abbrev PrivateData := String → Store

namespace PrivateContract

/-- Stub `PutPrivateData`: a write to one collection. -/
def PutPrivateData (stub : Stub) (pd : PrivateData) (collection : String) (key : GoString)
    (val : Bytes) :
    GoError × PrivateData :=
  match putIn stub collection (pd collection) key val with
  | (err, s) => (err, fun c => if c = collection then s else pd c)

/-- Stub `GetPrivateData`: read one key of one collection. -/
def GetPrivateData (pd : PrivateData) (collection : String) (key : GoString) : Option Bytes :=
  (pd collection).get key

/-- `SavePrivateDocument`: store the document in `collectionPrivateDocs`, then
the audit entry in `collectionAuditLogs`. -/
def SavePrivateDocument (stub : Stub) (pd : PrivateData)
    (documentId institution userId name path hash state : GoString) : GoError × PrivateData :=
  let doc : PrivateDocument :=
    { DocumentID := documentId, Institution := institution, UserID := userId,
      Name := name, Path := path, Hash := hash, State := state }
  let bytes := doc.marshal
  match PutPrivateData stub pd "collectionPrivateDocs" documentId bytes with
  | (some err, pd1) => (some err, pd1)
  | (none, pd1) =>
    let txID := stub.txID
    let log : PrivateAuditLog :=
      { TxID := txID, DocumentID := documentId, Institution := institution,
        UserID := userId, Operation := "create", OldState := "", NewState := state,
        Timestamp := stub.timestamp }
    let logBytes := log.marshal
    PutPrivateData stub pd1 "collectionAuditLogs" ("AUDIT_" ++ txID) logBytes

/-- `UpdateDocumentState`: read the record, replace its state, store it, then
store the audit entry. -/
def UpdateDocumentState (stub : Stub) (pd : PrivateData) (documentId newState : GoString) :
    GoError × PrivateData :=
  match GetPrivateData pd "collectionPrivateDocs" documentId with
  | none => (some "document not found", pd)
  | some data =>
    let doc0 := (PrivateDocument.unmarshal data).1
    let oldState := doc0.State
    let doc := { doc0 with State := newState }
    let updated := doc.marshal
    match PutPrivateData stub pd "collectionPrivateDocs" documentId updated with
    | (some err, pd1) => (some err, pd1)
    | (none, pd1) =>
      let txID := stub.txID
      let log : PrivateAuditLog :=
        { TxID := txID, DocumentID := documentId, Institution := doc.Institution,
          UserID := doc.UserID, Operation := "update_state", OldState := oldState,
          NewState := newState,
          Timestamp := stub.timestamp }
      let logBytes := log.marshal
      PutPrivateData stub pd1 "collectionAuditLogs" ("AUDIT_" ++ txID) logBytes

/-- `GetPrivateDocumentByID`: not found when the key has no value; otherwise
whatever the decoder leaves in the record, the decoding error being dropped. -/
def GetPrivateDocumentByID (pd : PrivateData) (documentId : GoString) :
    Except String PrivateDocument :=
  match GetPrivateData pd "collectionPrivateDocs" documentId with
  | none => .error "not found"
  | some data => .ok (PrivateDocument.unmarshal data).1

/-- `QueryPrivateByInstitution`: scan all of `collectionPrivateDocs`. -/
def QueryPrivateByInstitution (pd : PrivateData) (institution : GoString) :
    Except String (List PrivateDocument) :=
  .ok (((pd "collectionPrivateDocs").range "" "").filterMap fun record =>
    let r := PrivateDocument.unmarshal record.2
    if r.2 ∧ r.1.Institution = institution then some r.1 else none)

/-- `QueryPrivateByUser`: scan all of `collectionPrivateDocs`. -/
def QueryPrivateByUser (pd : PrivateData) (userId : GoString) :
    Except String (List PrivateDocument) :=
  .ok (((pd "collectionPrivateDocs").range "" "").filterMap fun record =>
    let r := PrivateDocument.unmarshal record.2
    if r.2 ∧ r.1.UserID = userId then some r.1 else none)

/-- The body of the loop of `QueryAuditLogs` for one scanned value: the entry
appended to the results, if any. -/
def auditStep (filterType filterValue : GoString) (start stop : Instant) (value : Bytes) :
    Option PrivateAuditLog :=
  let r := PrivateAuditLog.unmarshal value
  if ¬ r.2 then none
  else
    match parseRFC3339 r.1.Timestamp with
    | none => none
    | some timeParsed =>
      if timeParsed < start ∨ stop < timeParsed then none
      else if filterType = "documentId" then
        (if r.1.DocumentID = filterValue then some r.1 else none)
      else if filterType = "institution" then
        (if r.1.Institution = filterValue then some r.1 else none)
      else if filterType = "userId" then
        (if r.1.UserID = filterValue then some r.1 else none)
      else if filterType = "all" then some r.1
      else none

/-- `QueryAuditLogs`: scan the keys of `collectionAuditLogs` from `AUDIT_` up to
`AUDIT_z`. -/
def QueryAuditLogs (pd : PrivateData) (filterType filterValue startDate endDate : GoString) :
    Except String (List PrivateAuditLog) :=
  let start := parseOrZero startDate
  let stop := parseOrZero endDate
  .ok (((pd "collectionAuditLogs").range "AUDIT_" "AUDIT_z").filterMap fun record =>
    auditStep filterType filterValue start stop record.2)

end PrivateContract

/-! ## Records after a passage through JSON -/

/-- A `PublicDocument` after `json.Marshal` and `json.Unmarshal`. -/
def PublicDocument.viaJSON (d : PublicDocument) : PublicDocument :=
  ⟨d.DocumentID.viaJSON, d.Institution.viaJSON, d.UserID.viaJSON⟩

/-- An `AuditLog` after `json.Marshal` and `json.Unmarshal`. -/
def AuditLog.viaJSON (l : AuditLog) : AuditLog :=
  ⟨l.TxID.viaJSON, l.DocumentID.viaJSON, l.Institution.viaJSON, l.UserID.viaJSON,
    l.Operation.viaJSON, l.Timestamp.viaJSON⟩

/-- A `PrivateDocument` after `json.Marshal` and `json.Unmarshal`. -/
def PrivateDocument.viaJSON (d : PrivateDocument) : PrivateDocument :=
  ⟨d.DocumentID.viaJSON, d.Institution.viaJSON, d.UserID.viaJSON, d.Name.viaJSON,
    d.Path.viaJSON, d.Hash.viaJSON, d.State.viaJSON⟩

/-- A `PrivateAuditLog` after `json.Marshal` and `json.Unmarshal`. -/
def PrivateAuditLog.viaJSON (l : PrivateAuditLog) : PrivateAuditLog :=
  ⟨l.TxID.viaJSON, l.DocumentID.viaJSON, l.Institution.viaJSON, l.UserID.viaJSON,
    l.Operation.viaJSON, l.OldState.viaJSON, l.NewState.viaJSON, l.Timestamp.viaJSON⟩

/-! ## Reference definitions for the audit query and for reachable ledgers -/

/-- What the description of the audit query calls a well-formed, in-window entry
of the public chaincode: the value decodes without error, its timestamp parses,
and the instant is neither before `start` nor after `stop`. -/
def PublicContract.inWindowEntry (start stop : Instant) (value : Bytes) : Option AuditLog :=
  match AuditLog.unmarshal value with
  | (log, true) =>
    match parseRFC3339 log.Timestamp with
    | some t => if start ≤ t ∧ t ≤ stop then some log else none
    | none => none
  | (_, false) => none

/-- The well-formed, in-window entry of the private chaincode held by a scanned
value, if any. -/
def PrivateContract.inWindowEntry (start stop : Instant) (value : Bytes) :
    Option PrivateAuditLog :=
  match PrivateAuditLog.unmarshal value with
  | (log, true) =>
    match parseRFC3339 log.Timestamp with
    | some t => if start ≤ t ∧ t ≤ stop then some log else none
    | none => none
  | (_, false) => none

/-- A collection of documents as the private chaincode writes it: every stored
value is the encoding of a `PrivateDocument`, which is what `SavePrivateDocument`
and `UpdateDocumentState` put under a document id. -/
def PrivateContract.DocsWritten (s : Store) : Prop :=
  ∀ kv ∈ s, ∃ d : PrivateDocument, kv.2 = d.marshal

/-- The world states of the public chaincode reachable from the empty ledger by
successful `RegisterDocument` calls, together with the audit entries those calls
wrote, as they read back from JSON (latest first). -/
inductive PublicContract.Reach : Store → List AuditLog → Prop where
  | empty : PublicContract.Reach [] []
  | register (stub : Stub) (st st1 : Store) (logs : List AuditLog)
      (documentId institution userId : GoString) :
      PublicContract.Reach st logs →
      PublicContract.RegisterDocument stub st documentId institution userId = (none, st1) →
      PublicContract.Reach st1
        (AuditLog.viaJSON ⟨stub.txID, documentId, institution, userId, "create",
          stub.timestamp⟩ :: logs)

/-! ## Lemmas on Go strings -/

theorem char_range (c : Char) :
    c.toNat < 0xD800 ∨ (0xDFFF < c.toNat ∧ c.toNat < 0x110000) := c.valid

theorem decodeSuffixes_cons_tail (b : Nat) (t : List Nat) :
    (decodeSuffixes (b :: t)).2 =
      ((decodeSuffixes t).1, (decodeSuffixes t).2.1, (decodeSuffixes t).2.2.1) := rfl

theorem decodeText_cons (b : Nat) (t : List Nat) :
    decodeText (b :: t) =
      match decodeHead (b :: t) with
      | some (c, w) =>
        c :: (if w = 2 then decodeText (t.drop 1) else if w = 3 then decodeText (t.drop 2)
          else if w = 4 then decodeText (t.drop 3) else decodeText t)
      | none => Char.ofNat 0xFFFD :: decodeText t := by
  have h1 : ∀ l : List Nat, (decodeSuffixes l).2.1 = decodeText (l.drop 1) := by
    intro l
    cases l with
    | nil => rfl
    | cons a l => rfl
  have h2 : ∀ l : List Nat, (decodeSuffixes l).2.2.1 = decodeText (l.drop 2) := by
    intro l
    cases l with
    | nil => rfl
    | cons a l =>
      cases l with
      | nil => rfl
      | cons a2 l => rfl
  have h3 : ∀ l : List Nat, (decodeSuffixes l).2.2.2 = decodeText (l.drop 3) := by
    intro l
    cases l with
    | nil => rfl
    | cons a l =>
      cases l with
      | nil => rfl
      | cons a2 l =>
        cases l with
        | nil => rfl
        | cons a3 l => rfl
  show (decodeSuffixes (b :: t)).1 = _
  rw [decodeSuffixes]
  simp only [h1, h2, h3]
  rfl

theorem decodeText_utf8Encode (c : Char) (rest : List Nat) :
    decodeText (utf8Encode c ++ rest) = c :: decodeText rest := by
  have hv := char_range c
  have hc : Char.ofNat c.toNat = c := Char.ofNat_toNat c
  unfold utf8Encode
  by_cases h1 : c.toNat < 0x80
  · rw [if_pos h1]
    simp only [List.singleton_append]
    rw [decodeText_cons]
    simp [decodeHead, h1, hc]
  · rw [if_neg h1]
    by_cases h2 : c.toNat < 0x800
    · rw [if_pos h2]
      simp only [List.cons_append, List.nil_append]
      rw [decodeText_cons]
      have e1 : ¬ (0xC0 + c.toNat / 64 < 0x80) := by omega
      have e2 : 0xC2 ≤ 0xC0 + c.toNat / 64 ∧ 0xC0 + c.toNat / 64 ≤ 0xDF := by omega
      have e3 : 0x80 ≤ 0x80 + c.toNat % 64 ∧ 0x80 + c.toNat % 64 ≤ 0xBF := by omega
      have e4 : (0xC0 + c.toNat / 64 - 0xC0) * 64 + (0x80 + c.toNat % 64 - 0x80) = c.toNat := by
        omega
      simp only [decodeHead, e1, e2, e3, e4, hc, if_true, if_false, and_self]
      simp
    · rw [if_neg h2]
      by_cases h3 : c.toNat < 0x10000
      · rw [if_pos h3]
        simp only [List.cons_append, List.nil_append]
        rw [decodeText_cons]
        have e1 : ¬ (0xE0 + c.toNat / 4096 < 0x80) := by omega
        have e2 : ¬ (0xC2 ≤ 0xE0 + c.toNat / 4096 ∧ 0xE0 + c.toNat / 4096 ≤ 0xDF) := by omega
        have e3 : 0xE0 ≤ 0xE0 + c.toNat / 4096 ∧ 0xE0 + c.toNat / 4096 ≤ 0xEF := by omega
        have e4 : (if 0xE0 + c.toNat / 4096 = 0xE0 then 0xA0 else 0x80)
              ≤ 0x80 + c.toNat / 64 % 64
            ∧ 0x80 + c.toNat / 64 % 64
              ≤ (if 0xE0 + c.toNat / 4096 = 0xED then 0x9F else 0xBF)
            ∧ 0x80 ≤ 0x80 + c.toNat % 64 ∧ 0x80 + c.toNat % 64 ≤ 0xBF := by
          split_ifs <;> omega
        have e5 : (0xE0 + c.toNat / 4096 - 0xE0) * 4096 + (0x80 + c.toNat / 64 % 64 - 0x80) * 64
            + (0x80 + c.toNat % 64 - 0x80) = c.toNat := by omega
        simp only [decodeHead, e1, e2, e3, e4, e5, hc, if_true, if_false, and_self]
        simp
      · rw [if_neg h3]
        simp only [List.cons_append, List.nil_append]
        rw [decodeText_cons]
        have e1 : ¬ (0xF0 + c.toNat / 262144 < 0x80) := by omega
        have e2 : ¬ (0xC2 ≤ 0xF0 + c.toNat / 262144 ∧ 0xF0 + c.toNat / 262144 ≤ 0xDF) := by
          omega
        have e3 : ¬ (0xE0 ≤ 0xF0 + c.toNat / 262144 ∧ 0xF0 + c.toNat / 262144 ≤ 0xEF) := by
          omega
        have e4 : 0xF0 ≤ 0xF0 + c.toNat / 262144 ∧ 0xF0 + c.toNat / 262144 ≤ 0xF4 := by omega
        have e5 : (if 0xF0 + c.toNat / 262144 = 0xF0 then 0x90 else 0x80)
              ≤ 0x80 + c.toNat / 4096 % 64
            ∧ 0x80 + c.toNat / 4096 % 64
              ≤ (if 0xF0 + c.toNat / 262144 = 0xF4 then 0x8F else 0xBF)
            ∧ 0x80 ≤ 0x80 + c.toNat / 64 % 64 ∧ 0x80 + c.toNat / 64 % 64 ≤ 0xBF
            ∧ 0x80 ≤ 0x80 + c.toNat % 64 ∧ 0x80 + c.toNat % 64 ≤ 0xBF := by
          split_ifs <;> omega
        have e6 : (0xF0 + c.toNat / 262144 - 0xF0) * 262144
            + (0x80 + c.toNat / 4096 % 64 - 0x80) * 4096
            + (0x80 + c.toNat / 64 % 64 - 0x80) * 64 + (0x80 + c.toNat % 64 - 0x80)
            = c.toNat := by omega
        simp only [decodeHead, e1, e2, e3, e4, e5, e6, hc, if_true, if_false, and_self]
        simp

theorem decodeText_encodeChars (cs : List Char) : decodeText (encodeChars cs) = cs := by
  induction cs with
  | nil => rfl
  | cons c cs ih => rw [encodeChars, decodeText_utf8Encode, ih]

/-- A text put into a Go string and written by `json.Marshal` is the text. -/
theorem GoString.toText_ofString (s : String) : (GoString.ofString s).toText = s := by
  simp [GoString.toText, GoString.ofString, decodeText_encodeChars]

/-- A Go string that came out of JSON is valid UTF-8. -/
theorem GoString.viaJSON_ofString (s : String) :
    (GoString.ofString s).viaJSON = GoString.ofString s := by
  rw [GoString.viaJSON, GoString.toText_ofString]

theorem GoString.toText_viaJSON (s : GoString) : s.viaJSON.toText = s.toText := by
  rw [GoString.viaJSON, GoString.toText_ofString]

theorem GoString.viaJSON_viaJSON (s : GoString) : s.viaJSON.viaJSON = s.viaJSON := by
  rw [GoString.viaJSON, GoString.toText_viaJSON]
  rfl

theorem GoString.append_bytes (a b : GoString) : (a ++ b).bytes = a.bytes ++ b.bytes := rfl

/-! ## Lemmas on keys -/

theorem ltBytes_nil_right (a : List Nat) : ltBytes a [] = false := by
  cases a <;> rfl

theorem ltBytes_append_left (p a b : List Nat) :
    ltBytes (p ++ a) (p ++ b) = ltBytes a b := by
  induction p with
  | nil => rfl
  | cons c p ih => simp [ltBytes, ih]

theorem strLt_append_left (p a b : GoString) : strLt (p ++ a) (p ++ b) = strLt a b := by
  simp [strLt, GoString.append_bytes, ltBytes_append_left]

theorem strLe_self_append (p t : GoString) : strLe p (p ++ t) = true := by
  have h : strLt (p ++ t) (p ++ ⟨[]⟩) = strLt t ⟨[]⟩ := strLt_append_left p t ⟨[]⟩
  have hp : p ++ (⟨[]⟩ : GoString) = p := by
    cases p
    show GoString.mk (_ ++ []) = _
    rw [List.append_nil]
  rw [hp] at h
  rw [strLe, h]
  simp [strLt, ltBytes_nil_right]

theorem auditKey_lt_iff (t : GoString) : strLt ("AUDIT_" ++ t) "AUDIT_z" = strLt t "z" :=
  strLt_append_left "AUDIT_" t "z"

theorem auditKey_inj {a b : GoString} (h : ("AUDIT_" : GoString) ++ a = "AUDIT_" ++ b) :
    a = b := by
  have h2 := congrArg GoString.bytes h
  simp only [GoString.append_bytes] at h2
  cases a
  cases b
  simp only [GoString.mk.injEq]
  exact List.append_cancel_left h2

/-! ## Lemmas on the store -/

theorem Store.get_put_same (s : Store) (k : GoString) (v : Bytes) :
    (Store.put s k v).get k = some v := by
  induction s with
  | nil => simp [Store.put, Store.get]
  | cons kv rest ih =>
    obtain ⟨k1, v1⟩ := kv
    by_cases h1 : k1 = k
    · simp [Store.put, Store.get, h1]
    · by_cases h2 : strLt k k1 = true
      · simp [Store.put, Store.get, h1, h2]
      · simp [Store.put, Store.get, h1, h2, ih]

theorem Store.get_put_other (s : Store) (k j : GoString) (v : Bytes) (h : k ≠ j) :
    (Store.put s k v).get j = s.get j := by
  induction s with
  | nil => simp [Store.put, Store.get, h]
  | cons kv rest ih =>
    obtain ⟨k1, v1⟩ := kv
    by_cases h1 : k1 = k
    · subst h1
      simp [Store.put, Store.get, h]
    · by_cases h2 : strLt k k1 = true
      · simp [Store.put, Store.get, h1, h2, h]
      · simp [Store.put, Store.get, h1, h2, ih]

theorem Store.mem_put (s : Store) (k : GoString) (v : Bytes) : (k, v) ∈ Store.put s k v := by
  induction s with
  | nil => simp [Store.put]
  | cons kv rest ih =>
    obtain ⟨k1, v1⟩ := kv
    by_cases h1 : k1 = k
    · simp [Store.put, h1]
    · by_cases h2 : strLt k k1 = true
      · simp [Store.put, h1, h2]
      · simp [Store.put, h1, h2, ih]

theorem Store.length_put_of_get_none (s : Store) (k : GoString) (v : Bytes)
    (h : s.get k = none) : (Store.put s k v).length = s.length + 1 := by
  induction s with
  | nil => simp [Store.put]
  | cons kv rest ih =>
    obtain ⟨k1, v1⟩ := kv
    by_cases h1 : k1 = k
    · simp [Store.get, h1] at h
    · by_cases h2 : strLt k k1 = true
      · simp [Store.put, h1, h2]
      · simp only [Store.get, h1, if_false] at h
        simp [Store.put, h1, h2, ih h]

theorem Store.mem_range {s : Store} {kv : GoString × Bytes} {a b : GoString} (hm : kv ∈ s)
    (ha : strLe a kv.1 = true) (hb : strLt kv.1 b = true) : kv ∈ s.range a b := by
  simp [Store.range, List.mem_filter, hm, ha, hb]

/-! ## Encoding then decoding -/

theorem PublicDocument.decode_encode_document (d : PublicDocument) :
    PublicDocument.unmarshal d.marshal = (d.viaJSON, true) := by
  simp [PublicDocument.unmarshal, CertiChain.unmarshal, PublicDocument.marshal, decodeObject,
    PublicDocument.setter, slotOf, nameMatches, PublicDocument.zero, foldRune,
    PublicDocument.viaJSON, GoString.viaJSON]

theorem AuditLog.decode_encode_log (l : AuditLog) :
    AuditLog.unmarshal l.marshal = (l.viaJSON, true) := by
  simp [AuditLog.unmarshal, CertiChain.unmarshal, AuditLog.marshal, decodeObject,
    AuditLog.setter, slotOf, nameMatches, AuditLog.zero, foldRune, AuditLog.viaJSON,
    GoString.viaJSON]

/-- An audit entry of the public chaincode decodes as a document without error:
the members a document does not have are dropped. -/
theorem PublicDocument.unmarshal_auditLog (l : AuditLog) :
    PublicDocument.unmarshal l.marshal
      = (⟨l.DocumentID.viaJSON, l.Institution.viaJSON, l.UserID.viaJSON⟩, true) := by
  simp [PublicDocument.unmarshal, CertiChain.unmarshal, AuditLog.marshal, decodeObject,
    PublicDocument.setter, slotOf, nameMatches, PublicDocument.zero, foldRune,
    GoString.viaJSON]

theorem PrivateDocument.decode_encode_privateDocument (d : PrivateDocument) :
    PrivateDocument.unmarshal d.marshal = (d.viaJSON, true) := by
  simp [PrivateDocument.unmarshal, CertiChain.unmarshal, PrivateDocument.marshal, decodeObject,
    PrivateDocument.setter, slotOf, nameMatches, PrivateDocument.zero, foldRune,
    PrivateDocument.viaJSON, GoString.viaJSON]

theorem PrivateAuditLog.decode_encode_privateLog (l : PrivateAuditLog) :
    PrivateAuditLog.unmarshal l.marshal = (l.viaJSON, true) := by
  by_cases h : l.OldState = ""
  · obtain ⟨a, b, c, d, e, f, g, t⟩ := l
    simp only at h
    subst h
    have hz : (GoString.ofString "").viaJSON = GoString.ofString "" := by rfl
    simp [PrivateAuditLog.unmarshal, CertiChain.unmarshal, PrivateAuditLog.marshal,
      decodeObject, PrivateAuditLog.setter, slotOf, nameMatches, PrivateAuditLog.zero, foldRune,
      PrivateAuditLog.viaJSON, hz]
    simp [GoString.viaJSON]
  · simp [PrivateAuditLog.unmarshal, CertiChain.unmarshal, PrivateAuditLog.marshal,
      decodeObject, PrivateAuditLog.setter, slotOf, nameMatches, PrivateAuditLog.zero, h,
      foldRune, PrivateAuditLog.viaJSON, GoString.viaJSON]

/-- A document of the public chaincode decodes as an audit entry with an empty
timestamp. -/
theorem AuditLog.unmarshal_document (d : PublicDocument) :
    AuditLog.unmarshal d.marshal
      = (⟨"", d.DocumentID.viaJSON, d.Institution.viaJSON, d.UserID.viaJSON, "", ""⟩, true) := by
  simp [AuditLog.unmarshal, CertiChain.unmarshal, PublicDocument.marshal, decodeObject,
    AuditLog.setter, slotOf, nameMatches, AuditLog.zero, foldRune, GoString.viaJSON]

/-- Encoding a record that came out of JSON writes the same bytes as encoding the
record it came from. -/
theorem PublicDocument.marshal_viaJSON (d : PublicDocument) : d.viaJSON.marshal = d.marshal := by
  simp [PublicDocument.marshal, PublicDocument.viaJSON, GoString.toText_viaJSON]

theorem AuditLog.marshal_viaJSON_log (l : AuditLog) : l.viaJSON.marshal = l.marshal := by
  simp [AuditLog.marshal, AuditLog.viaJSON, GoString.toText_viaJSON]

theorem PrivateDocument.marshal_viaJSON_privateDocument (d : PrivateDocument) :
    d.viaJSON.marshal = d.marshal := by
  simp [PrivateDocument.marshal, PrivateDocument.viaJSON, GoString.toText_viaJSON]

/-! ## What a successful mutating call leaves in the ledger -/

theorem PublicContract.RegisterDocument_ok {stub : Stub} {st st1 : Store}
    {documentId institution userId : GoString}
    (h : PublicContract.RegisterDocument stub st documentId institution userId = (none, st1)) :
    st1 = (st.put documentId (PublicDocument.marshal ⟨documentId, institution, userId⟩)).put
      ("AUDIT_" ++ stub.txID)
      (AuditLog.marshal ⟨stub.txID, documentId, institution, userId, "create", stub.timestamp⟩) := by
  unfold PublicContract.RegisterDocument PublicContract.PutState putIn at h
  cases h1 : stub.putErr "" documentId with
  | some e => simp [h1] at h
  | none =>
    cases h2 : stub.putErr "" ("AUDIT_" ++ stub.txID) with
    | some e => simp [h1, h2] at h
    | none =>
      simp [h1, h2] at h
      exact h.symm

theorem PrivateContract.SavePrivateDocument_ok {stub : Stub} {pd pd1 : PrivateData}
    {documentId institution userId name path hash state : GoString}
    (h : PrivateContract.SavePrivateDocument stub pd documentId institution userId name path
      hash state = (none, pd1)) :
    pd1 "collectionPrivateDocs" = (pd "collectionPrivateDocs").put documentId
        (PrivateDocument.marshal ⟨documentId, institution, userId, name, path, hash, state⟩)
    ∧ pd1 "collectionAuditLogs" = (pd "collectionAuditLogs").put ("AUDIT_" ++ stub.txID)
        (PrivateAuditLog.marshal
          ⟨stub.txID, documentId, institution, userId, "create", "", state, stub.timestamp⟩) := by
  unfold PrivateContract.SavePrivateDocument PrivateContract.PutPrivateData putIn at h
  cases h1 : stub.putErr "collectionPrivateDocs" documentId with
  | some e => simp [h1] at h
  | none =>
    cases h2 : stub.putErr "collectionAuditLogs" ("AUDIT_" ++ stub.txID) with
    | some e => simp [h1, h2] at h
    | none =>
      simp [h1, h2] at h
      subst h
      simp

theorem PrivateContract.UpdateDocumentState_ok {stub : Stub} {pd pd1 : PrivateData}
    {documentId newState : GoString}
    (h : PrivateContract.UpdateDocumentState stub pd documentId newState = (none, pd1)) :
    ∃ data, (pd "collectionPrivateDocs").get documentId = some data
      ∧ pd1 "collectionPrivateDocs" = (pd "collectionPrivateDocs").put documentId
          (PrivateDocument.marshal
            { (PrivateDocument.unmarshal data).1 with State := newState })
      ∧ pd1 "collectionAuditLogs" = (pd "collectionAuditLogs").put ("AUDIT_" ++ stub.txID)
          (PrivateAuditLog.marshal
            ⟨stub.txID, documentId, (PrivateDocument.unmarshal data).1.Institution,
              (PrivateDocument.unmarshal data).1.UserID, "update_state",
              (PrivateDocument.unmarshal data).1.State, newState, stub.timestamp⟩) := by
  unfold PrivateContract.UpdateDocumentState PrivateContract.GetPrivateData
    PrivateContract.PutPrivateData putIn at h
  cases h0 : (pd "collectionPrivateDocs").get documentId with
  | none => simp [h0] at h
  | some data =>
    refine ⟨data, rfl, ?_⟩
    cases h1 : stub.putErr "collectionPrivateDocs" documentId with
    | some e => simp [h0, h1] at h
    | none =>
      cases h2 : stub.putErr "collectionAuditLogs" ("AUDIT_" ++ stub.txID) with
      | some e => simp [h0, h1, h2] at h
      | none =>
        simp [h0, h1, h2] at h
        subst h
        simp

/-! ## The claims -/

/-- C1: evaluation of the public chaincode on an empty ledger. After the single
successful call RegisterDocument("d1", "BankA", "u1") in transaction t1,
QueryByInstitution("BankA") returns the document twice: once decoded from the audit
entry stored under AUDIT_t1, which the scan of the whole key space also visits, and
once from the document stored under d1. -/
theorem C1_queryByInstitution_returns_audit_entry :
    (PublicContract.RegisterDocument (stubAt "t1" 1700000000) [] "d1" "BankA" "u1").1 = none
    ∧ PublicContract.QueryByInstitution
        (PublicContract.RegisterDocument (stubAt "t1" 1700000000) [] "d1" "BankA" "u1").2
        "BankA"
      = .ok [⟨"d1", "BankA", "u1"⟩, ⟨"d1", "BankA", "u1"⟩] := by
  constructor <;> rfl

/-- C2: evaluation of the public chaincode. The audit entry of transaction t0 is
stored under AUDIT_t0; a later successful RegisterDocument in transaction t1 whose
documentId is "AUDIT_t0" replaces the value under that key by a document record. -/
theorem C2_register_rewrites_audit_entry :
    (PublicContract.RegisterDocument (stubAt "t0" 1700000000) [] "d1" "BankA" "u1").2.get
        "AUDIT_t0"
      = some (AuditLog.marshal ⟨"t0", "d1", "BankA", "u1", "create", "2023-11-14T22:13:20Z"⟩)
    ∧ (PublicContract.RegisterDocument (stubAt "t1" 1700000100)
        (PublicContract.RegisterDocument (stubAt "t0" 1700000000) [] "d1" "BankA" "u1").2
        "AUDIT_t0" "X" "u").1 = none
    ∧ (PublicContract.RegisterDocument (stubAt "t1" 1700000100)
        (PublicContract.RegisterDocument (stubAt "t0" 1700000000) [] "d1" "BankA" "u1").2
        "AUDIT_t0" "X" "u").2.get "AUDIT_t0"
      = some (PublicDocument.marshal ⟨"AUDIT_t0", "X", "u"⟩)
    ∧ AuditLog.marshal ⟨"t0", "d1", "BankA", "u1", "create", "2023-11-14T22:13:20Z"⟩
      ≠ PublicDocument.marshal ⟨"AUDIT_t0", "X", "u"⟩ := by
  refine ⟨by rfl, by rfl, by rfl, by decide⟩

/-- C3, at a concrete input: the document d2 is saved with state DRAFT and then
updated to a state that is the single byte 0xFF, which is not valid UTF-8. Both calls
succeed; GetPrivateDocumentByID returns the state U+FFFD (bytes EF BF BD), which is not
the state given, and the audit entry of the update holds U+FFFD as its newState. -/
theorem C3_counterexample_invalid_utf8_state :
    (PrivateContract.UpdateDocumentState (stubAt "t2" 1700000100)
      (PrivateContract.SavePrivateDocument (stubAt "t1" 1700000000) (fun _ => [])
        "d2" "BankB" "u2" "file.pdf" "/path" "h123" "DRAFT").2 "d2" ⟨[255]⟩).1 = none
    ∧ PrivateContract.GetPrivateDocumentByID
        (PrivateContract.UpdateDocumentState (stubAt "t2" 1700000100)
          (PrivateContract.SavePrivateDocument (stubAt "t1" 1700000000) (fun _ => [])
            "d2" "BankB" "u2" "file.pdf" "/path" "h123" "DRAFT").2 "d2" ⟨[255]⟩).2 "d2"
      = .ok ⟨"d2", "BankB", "u2", "file.pdf", "/path", "h123", ⟨[239, 191, 189]⟩⟩
    ∧ (⟨[239, 191, 189]⟩ : GoString) ≠ ⟨[255]⟩
    ∧ ((PrivateContract.UpdateDocumentState (stubAt "t2" 1700000100)
          (PrivateContract.SavePrivateDocument (stubAt "t1" 1700000000) (fun _ => [])
            "d2" "BankB" "u2" "file.pdf" "/path" "h123" "DRAFT").2 "d2" ⟨[255]⟩).2
        "collectionAuditLogs").get "AUDIT_t2"
      = some (.object [("txID", .str "t2"), ("documentId", .str "d2"),
          ("institution", .str "BankB"), ("userId", .str "u2"),
          ("operation", .str "update_state"), ("oldState", .str "DRAFT"),
          ("newState", .str (String.mk [Char.ofNat 0xFFFD])),
          ("timestamp", .str "2023-11-14T22:15:00Z")]) := by
  refine ⟨by rfl, by rfl, by decide, by rfl⟩

/-- C3 as amended: in the private chaincode, for states s1 and s2 that are valid UTF-8
(the empty string and s1 = s2 included), a successful SavePrivateDocument with state s1
in transaction t1 followed by a successful UpdateDocumentState to s2 in a different
transaction t2 (whose audit key is not in use) makes GetPrivateDocumentByID return state
s2, the other fields being the saved ones as JSON stores them, and adds exactly one
entry to collectionAuditLogs: the key AUDIT_+t2 was absent and now holds an entry that
decodes with operation update_state, oldState s1 and newState s2, every other key reads
as before and the collection has one more pair. -/
theorem C3_update_after_save (stub1 stub2 : Stub) (pd pdA pdB : PrivateData)
    (id institution userId name path hash s1 s2 : GoString)
    (hv1 : s1.ValidUTF8) (hv2 : s2.ValidUTF8)
    (hne : stub1.txID ≠ stub2.txID)
    (hfresh : (pd "collectionAuditLogs").get ("AUDIT_" ++ stub2.txID) = none)
    (hsave : PrivateContract.SavePrivateDocument stub1 pd id institution userId name path
      hash s1 = (none, pdA))
    (hupd : PrivateContract.UpdateDocumentState stub2 pdA id s2 = (none, pdB)) :
    PrivateContract.GetPrivateDocumentByID pdB id
        = .ok ⟨id.viaJSON, institution.viaJSON, userId.viaJSON, name.viaJSON, path.viaJSON,
            hash.viaJSON, s2⟩
    ∧ (pdA "collectionAuditLogs").get ("AUDIT_" ++ stub2.txID) = none
    ∧ (∃ (data : Bytes) (e : PrivateAuditLog),
        (pdB "collectionAuditLogs").get ("AUDIT_" ++ stub2.txID) = some data
        ∧ PrivateAuditLog.unmarshal data = (e, true)
        ∧ e.TxID = stub2.txID.viaJSON ∧ e.DocumentID = id.viaJSON
        ∧ e.Operation = "update_state" ∧ e.OldState = s1 ∧ e.NewState = s2)
    ∧ (∀ k, k ≠ "AUDIT_" ++ stub2.txID →
        (pdB "collectionAuditLogs").get k = (pdA "collectionAuditLogs").get k)
    ∧ (pdB "collectionAuditLogs").length = (pdA "collectionAuditLogs").length + 1 := by
  obtain ⟨hdocA, hlogA⟩ := PrivateContract.SavePrivateDocument_ok hsave
  obtain ⟨data, hget, hdocB, hlogB⟩ := PrivateContract.UpdateDocumentState_ok hupd
  have hkey : ("AUDIT_" : GoString) ++ stub1.txID ≠ "AUDIT_" ++ stub2.txID :=
    fun h => hne (auditKey_inj h)
  have hdata : data = PrivateDocument.marshal ⟨id, institution, userId, name, path, hash, s1⟩ := by
    rw [hdocA, Store.get_put_same] at hget
    exact (Option.some.inj hget).symm
  subst hdata
  simp only [PrivateDocument.decode_encode_privateDocument, PrivateDocument.viaJSON] at hdocB hlogB
  have hfreshA : (pdA "collectionAuditLogs").get ("AUDIT_" ++ stub2.txID) = none := by
    rw [hlogA, Store.get_put_other _ _ _ _ hkey]
    exact hfresh
  have h1 : s1.viaJSON = s1 := hv1
  have h2 : s2.viaJSON = s2 := hv2
  refine ⟨?_, hfreshA,
    ⟨_, _, ?_,
      PrivateAuditLog.decode_encode_privateLog
        ⟨stub2.txID, id, institution.viaJSON, userId.viaJSON, "update_state", s1.viaJSON, s2,
          stub2.timestamp⟩, ?_, ?_, ?_, ?_, ?_⟩, ?_, ?_⟩
  · simp only [PrivateContract.GetPrivateDocumentByID, PrivateContract.GetPrivateData, hdocB,
      Store.get_put_same, PrivateDocument.decode_encode_privateDocument,
      PrivateDocument.viaJSON, GoString.viaJSON_viaJSON, h2]
  · rw [hlogB, Store.get_put_same]
  · rfl
  · rfl
  · rfl
  · simp only [PrivateAuditLog.viaJSON, GoString.viaJSON_viaJSON, h1]
  · simp only [PrivateAuditLog.viaJSON, h2]
  · intro k hk
    rw [hlogB, Store.get_put_other _ _ _ _ (Ne.symm hk)]
  · rw [hlogB, Store.length_put_of_get_none _ _ _ hfreshA]

/-- C3 as amended, at a concrete input: save d2 with state DRAFT in transaction t1 on
the empty ledger, then update it to APPROVED in transaction t2. -/
theorem C3_update_after_save_witness :
    PrivateContract.GetPrivateDocumentByID
        (PrivateContract.UpdateDocumentState (stubAt "t2" 1700000100)
          (PrivateContract.SavePrivateDocument (stubAt "t1" 1700000000) (fun _ => [])
            "d2" "BankB" "u2" "file.pdf" "/path" "h123" "DRAFT").2 "d2" "APPROVED").2 "d2"
      = .ok ⟨"d2", "BankB", "u2", "file.pdf", "/path", "h123", "APPROVED"⟩ :=
  (C3_update_after_save (stubAt "t1" 1700000000) (stubAt "t2" 1700000100) (fun _ => [])
    (PrivateContract.SavePrivateDocument (stubAt "t1" 1700000000) (fun _ => [])
      "d2" "BankB" "u2" "file.pdf" "/path" "h123" "DRAFT").2
    (PrivateContract.UpdateDocumentState (stubAt "t2" 1700000100)
      (PrivateContract.SavePrivateDocument (stubAt "t1" 1700000000) (fun _ => [])
        "d2" "BankB" "u2" "file.pdf" "/path" "h123" "DRAFT").2 "d2" "APPROVED").2
    "d2" "BankB" "u2" "file.pdf" "/path" "h123" "DRAFT" "APPROVED"
    (by decide) (by decide) (by decide) (by rfl) (by rfl) (by rfl)).1

theorem all_ne_documentId : (GoString.ofString "all") ≠ GoString.ofString "documentId" := by
  decide

theorem all_ne_institution : (GoString.ofString "all") ≠ GoString.ofString "institution" := by
  decide

theorem all_ne_userId : (GoString.ofString "all") ≠ GoString.ofString "userId" := by decide

theorem institution_ne_documentId :
    (GoString.ofString "institution") ≠ GoString.ofString "documentId" := by decide

theorem userId_ne_documentId :
    (GoString.ofString "userId") ≠ GoString.ofString "documentId" := by decide

theorem userId_ne_institution :
    (GoString.ofString "userId") ≠ GoString.ofString "institution" := by decide

theorem PublicContract.auditStep_all_public (fv : GoString) (start stop τ : Int) (value : Bytes)
    (log : AuditLog) (hdec : AuditLog.unmarshal value = (log, true))
    (hτ : parseRFC3339 log.Timestamp = some τ) :
    PublicContract.auditStep "all" fv start stop value
      = if start ≤ τ ∧ τ ≤ stop then some log else none := by
  by_cases h : start ≤ τ ∧ τ ≤ stop
  · have h1 : ¬ (τ < start ∨ stop < τ) := by omega
    simp [PublicContract.auditStep, hdec, hτ, h, h1, all_ne_documentId, all_ne_institution,
      all_ne_userId]
  · have h1 : τ < start ∨ stop < τ := by omega
    simp [PublicContract.auditStep, hdec, hτ, h, h1, all_ne_documentId, all_ne_institution,
      all_ne_userId]

theorem PrivateContract.auditStep_all_private (fv : GoString) (start stop τ : Int) (value : Bytes)
    (log : PrivateAuditLog) (hdec : PrivateAuditLog.unmarshal value = (log, true))
    (hτ : parseRFC3339 log.Timestamp = some τ) :
    PrivateContract.auditStep "all" fv start stop value
      = if start ≤ τ ∧ τ ≤ stop then some log else none := by
  by_cases h : start ≤ τ ∧ τ ≤ stop
  · have h1 : ¬ (τ < start ∨ stop < τ) := by omega
    simp [PrivateContract.auditStep, hdec, hτ, h, h1, all_ne_documentId, all_ne_institution,
      all_ne_userId]
  · have h1 : τ < start ∨ stop < τ := by omega
    simp [PrivateContract.auditStep, hdec, hτ, h, h1, all_ne_documentId, all_ne_institution,
      all_ne_userId]

theorem auditKey_mem_range {s : Store} {t : GoString} {v : Bytes}
    (hm : (("AUDIT_" : GoString) ++ t, v) ∈ s) (ht : strLt t "z" = true) :
    (("AUDIT_" : GoString) ++ t, v) ∈ s.range "AUDIT_" "AUDIT_z" :=
  Store.mem_range hm (strLe_self_append "AUDIT_" t) (by rw [auditKey_lt_iff]; exact ht)

/-- C4, at a concrete input: the create of transaction "z" succeeds and stores its
audit entry under AUDIT_z, the timestamp of the entry lies inside the window, and
QueryAuditLogs("all", "", start, end) returns nothing, because the key AUDIT_z is the
excluded upper end of the scanned range. Besides, a create committed at the start of
year 10000 writes a timestamp that time.Parse rejects. -/
theorem C4_counterexample_txid_z :
    (PublicContract.RegisterDocument (stubAt "z" 1700000000) [] "d1" "BankA" "u1").1 = none
    ∧ (PublicContract.RegisterDocument (stubAt "z" 1700000000) [] "d1" "BankA" "u1").2.get
        "AUDIT_z"
      = some (AuditLog.marshal ⟨"z", "d1", "BankA", "u1", "create", "2023-11-14T22:13:20Z"⟩)
    ∧ parseRFC3339 "2023-11-14T22:13:20Z" = some 1700000000000000000
    ∧ parseOrZero "2023-01-01T00:00:00Z" = 1672531200000000000
    ∧ parseOrZero "2024-01-01T00:00:00Z" = 1704067200000000000
    ∧ PublicContract.QueryAuditLogs
        (PublicContract.RegisterDocument (stubAt "z" 1700000000) [] "d1" "BankA" "u1").2
        "all" "" "2023-01-01T00:00:00Z" "2024-01-01T00:00:00Z" = .ok []
    ∧ (stubAt "ab12" 253402300800).timestamp = "10000-01-01T00:00:00Z"
    ∧ parseRFC3339 (stubAt "ab12" 253402300800).timestamp = none := by
  refine ⟨by rfl, by rfl, by rfl, by rfl, by rfl, by rfl, by rfl, by rfl⟩

/-- A record whose fields are valid UTF-8 comes back from JSON as it went in. -/
theorem AuditLog.viaJSON_of_valid (t d i u op ts : GoString)
    (ht : t.ValidUTF8) (hd : d.ValidUTF8) (hi : i.ValidUTF8) (hu : u.ValidUTF8)
    (hop : op.ValidUTF8) (hts : ts.ValidUTF8) :
    AuditLog.viaJSON ⟨t, d, i, u, op, ts⟩ = ⟨t, d, i, u, op, ts⟩ := by
  have h1 : t.viaJSON = t := ht
  have h2 : d.viaJSON = d := hd
  have h3 : i.viaJSON = i := hi
  have h4 : u.viaJSON = u := hu
  have h5 : op.viaJSON = op := hop
  have h6 : ts.viaJSON = ts := hts
  simp only [AuditLog.viaJSON, h1, h2, h3, h4, h5, h6]

theorem PrivateAuditLog.viaJSON_of_valid_private (t d i u op o n ts : GoString)
    (ht : t.ValidUTF8) (hd : d.ValidUTF8) (hi : i.ValidUTF8) (hu : u.ValidUTF8)
    (hop : op.ValidUTF8) (ho : o.ValidUTF8) (hn : n.ValidUTF8) (hts : ts.ValidUTF8) :
    PrivateAuditLog.viaJSON ⟨t, d, i, u, op, o, n, ts⟩ = ⟨t, d, i, u, op, o, n, ts⟩ := by
  have h1 : t.viaJSON = t := ht
  have h2 : d.viaJSON = d := hd
  have h3 : i.viaJSON = i := hi
  have h4 : u.viaJSON = u := hu
  have h5 : op.viaJSON = op := hop
  have h6 : o.viaJSON = o := ho
  have h7 : n.viaJSON = n := hn
  have h8 : ts.viaJSON = ts := hts
  simp only [PrivateAuditLog.viaJSON, h1, h2, h3, h4, h5, h6, h7, h8]

/-- C4 as amended: for every transaction id t that is bytewise below "z" (every
hexadecimal id is) and every successful create (RegisterDocument or
SavePrivateDocument) executed in t, the audit entry written at key AUDIT_+t lies
inside the range that QueryAuditLogs scans; if its timestamp parses as RFC3339 to an
instant between the parsed start and end, QueryAuditLogs("all", "", start, end)
returns that entry, as it reads back from JSON (which is the entry itself when the
transaction id and the arguments are valid UTF-8). -/
theorem C4_created_entry_is_returned (stub : Stub) (st st1 : Store) (pd pd1 : PrivateData)
    (documentId institution userId name path hash state startDate endDate : GoString)
    (τ : Instant) (hkey : strLt stub.txID "z" = true)
    (hts : parseRFC3339 stub.timestamp = some τ)
    (hwin : parseOrZero startDate ≤ τ ∧ τ ≤ parseOrZero endDate) :
    (PublicContract.RegisterDocument stub st documentId institution userId = (none, st1) →
      ((("AUDIT_" : GoString) ++ stub.txID,
          AuditLog.marshal ⟨stub.txID, documentId, institution, userId, "create",
            stub.timestamp⟩) ∈ st1.range "AUDIT_" "AUDIT_z")
      ∧ ∃ rs, PublicContract.QueryAuditLogs st1 "all" "" startDate endDate = .ok rs
          ∧ AuditLog.viaJSON ⟨stub.txID, documentId, institution, userId, "create",
              stub.timestamp⟩ ∈ rs
          ∧ (stub.txID.ValidUTF8 → documentId.ValidUTF8 → institution.ValidUTF8 →
              userId.ValidUTF8 →
              (⟨stub.txID, documentId, institution, userId, "create", stub.timestamp⟩
                : AuditLog) ∈ rs))
    ∧ (PrivateContract.SavePrivateDocument stub pd documentId institution userId name path
          hash state = (none, pd1) →
      ((("AUDIT_" : GoString) ++ stub.txID,
          PrivateAuditLog.marshal ⟨stub.txID, documentId, institution, userId, "create", "",
            state, stub.timestamp⟩) ∈ (pd1 "collectionAuditLogs").range "AUDIT_" "AUDIT_z")
      ∧ ∃ rs, PrivateContract.QueryAuditLogs pd1 "all" "" startDate endDate = .ok rs
          ∧ PrivateAuditLog.viaJSON ⟨stub.txID, documentId, institution, userId, "create", "",
              state, stub.timestamp⟩ ∈ rs
          ∧ (stub.txID.ValidUTF8 → documentId.ValidUTF8 → institution.ValidUTF8 →
              userId.ValidUTF8 → state.ValidUTF8 →
              (⟨stub.txID, documentId, institution, userId, "create", "", state,
                stub.timestamp⟩ : PrivateAuditLog) ∈ rs)) := by
  have htsv : stub.timestamp.viaJSON = stub.timestamp := GoString.viaJSON_ofString _
  constructor
  · intro h
    have hst := PublicContract.RegisterDocument_ok h
    have hm : (("AUDIT_" : GoString) ++ stub.txID,
        AuditLog.marshal ⟨stub.txID, documentId, institution, userId, "create",
          stub.timestamp⟩) ∈ st1.range "AUDIT_" "AUDIT_z" := by
      rw [hst]
      exact auditKey_mem_range (Store.mem_put _ _ _) hkey
    have hmem : AuditLog.viaJSON ⟨stub.txID, documentId, institution, userId, "create",
        stub.timestamp⟩ ∈ (st1.range "AUDIT_" "AUDIT_z").filterMap fun item =>
          PublicContract.auditStep "all" "" (parseOrZero startDate) (parseOrZero endDate)
            item.2 := by
      rw [List.mem_filterMap]
      refine ⟨_, hm, ?_⟩
      have hstep := PublicContract.auditStep_all_public "" (parseOrZero startDate)
        (parseOrZero endDate) τ _ _ (AuditLog.decode_encode_log
          ⟨stub.txID, documentId, institution, userId, "create", stub.timestamp⟩)
        (by simp only [AuditLog.viaJSON, htsv]; exact hts)
      rw [if_pos hwin] at hstep
      exact hstep
    refine ⟨hm, _, rfl, hmem, ?_⟩
    intro h1 h2 h3 h4
    have hv := AuditLog.viaJSON_of_valid stub.txID documentId institution userId "create"
      stub.timestamp h1 h2 h3 h4 (by decide) htsv
    rw [← hv]
    exact hmem
  · intro h
    obtain ⟨_, hlog⟩ := PrivateContract.SavePrivateDocument_ok h
    have hm : (("AUDIT_" : GoString) ++ stub.txID,
        PrivateAuditLog.marshal ⟨stub.txID, documentId, institution, userId, "create", "",
          state, stub.timestamp⟩) ∈ (pd1 "collectionAuditLogs").range "AUDIT_" "AUDIT_z" := by
      rw [hlog]
      exact auditKey_mem_range (Store.mem_put _ _ _) hkey
    have hmem : PrivateAuditLog.viaJSON ⟨stub.txID, documentId, institution, userId, "create",
        "", state, stub.timestamp⟩
        ∈ ((pd1 "collectionAuditLogs").range "AUDIT_" "AUDIT_z").filterMap fun item =>
          PrivateContract.auditStep "all" "" (parseOrZero startDate) (parseOrZero endDate)
            item.2 := by
      rw [List.mem_filterMap]
      refine ⟨_, hm, ?_⟩
      have hstep := PrivateContract.auditStep_all_private "" (parseOrZero startDate)
        (parseOrZero endDate) τ _ _ (PrivateAuditLog.decode_encode_privateLog
          ⟨stub.txID, documentId, institution, userId, "create", "", state, stub.timestamp⟩)
        (by simp only [PrivateAuditLog.viaJSON, htsv]; exact hts)
      rw [if_pos hwin] at hstep
      exact hstep
    refine ⟨hm, _, rfl, hmem, ?_⟩
    intro h1 h2 h3 h4 h5
    have hv := PrivateAuditLog.viaJSON_of_valid_private stub.txID documentId institution userId
      "create" "" state stub.timestamp h1 h2 h3 h4 (by decide) (by decide) h5 htsv
    rw [← hv]
    exact hmem

/-- C4 as amended, at a concrete input: transaction "ab12" committed at Unix time
1700000000, window equal to the year 2023. -/
theorem C4_created_entry_is_returned_witness :
    ∃ rs, PublicContract.QueryAuditLogs
        (PublicContract.RegisterDocument (stubAt "ab12" 1700000000) [] "d1" "BankA" "u1").2
        "all" "" "2023-01-01T00:00:00Z" "2024-01-01T00:00:00Z" = .ok rs
      ∧ AuditLog.viaJSON ⟨"ab12", "d1", "BankA", "u1", "create",
          (stubAt "ab12" 1700000000).timestamp⟩ ∈ rs
      ∧ ((GoString.ofString "ab12").ValidUTF8 → (GoString.ofString "d1").ValidUTF8 →
          (GoString.ofString "BankA").ValidUTF8 → (GoString.ofString "u1").ValidUTF8 →
          (⟨"ab12", "d1", "BankA", "u1", "create", (stubAt "ab12" 1700000000).timestamp⟩
            : AuditLog) ∈ rs) :=
  ((C4_created_entry_is_returned (stubAt "ab12" 1700000000) []
    (PublicContract.RegisterDocument (stubAt "ab12" 1700000000) [] "d1" "BankA" "u1").2
    (fun _ => []) (fun _ => []) "d1" "BankA" "u1" "" "" "" ""
    "2023-01-01T00:00:00Z" "2024-01-01T00:00:00Z" 1700000000000000000
    (by rfl) (by rfl)
    ⟨le_of_eq_of_le (rfl : parseOrZero "2023-01-01T00:00:00Z" = 1672531200000000000)
        (by decide),
      le_of_le_of_eq (by decide)
        (rfl : (1704067200000000000 : Int) = parseOrZero "2024-01-01T00:00:00Z")⟩).1
    (by rfl)).2

/-- C5: in both chaincodes, for parseable startDate and endDate and every scanned
record that decodes to an audit entry with a parseable timestamp,
QueryAuditLogs("all", _, startDate, endDate) holds that entry, at its place in the scan,
exactly when start <= timestamp <= end as instants: the result is what the records
scanned before it give, then the entry if and only if it lies in the closed window,
then what the records scanned after it give. -/
theorem C5_window_is_inclusive (st : Store) (pd : PrivateData)
    (fv startDate endDate : GoString) (s e : Int)
    (hs : parseRFC3339 startDate = some s) (he : parseRFC3339 endDate = some e) :
    (∀ (before after : List (GoString × Bytes)) (key : GoString) (value : Bytes) (log : AuditLog)
        (τ : Int),
      st.range "AUDIT_" "AUDIT_z" = before ++ (key, value) :: after →
      AuditLog.unmarshal value = (log, true) → parseRFC3339 log.Timestamp = some τ →
      PublicContract.QueryAuditLogs st "all" fv startDate endDate
        = .ok (before.filterMap (fun item => PublicContract.auditStep "all" fv s e item.2)
            ++ (if s ≤ τ ∧ τ ≤ e then [log] else [])
            ++ after.filterMap (fun item => PublicContract.auditStep "all" fv s e item.2)))
    ∧ (∀ (before after : List (GoString × Bytes)) (key : GoString) (value : Bytes)
        (log : PrivateAuditLog) (τ : Int),
      (pd "collectionAuditLogs").range "AUDIT_" "AUDIT_z" = before ++ (key, value) :: after →
      PrivateAuditLog.unmarshal value = (log, true) → parseRFC3339 log.Timestamp = some τ →
      PrivateContract.QueryAuditLogs pd "all" fv startDate endDate
        = .ok (before.filterMap (fun item => PrivateContract.auditStep "all" fv s e item.2)
            ++ (if s ≤ τ ∧ τ ≤ e then [log] else [])
            ++ after.filterMap (fun item => PrivateContract.auditStep "all" fv s e item.2))) := by
  have hs1 : parseOrZero startDate = s := by simp [parseOrZero, hs]
  have he1 : parseOrZero endDate = e := by simp [parseOrZero, he]
  constructor
  · intro before after key value log τ hsplit hdec hτ
    simp only [PublicContract.QueryAuditLogs, hsplit, hs1, he1, List.filterMap_append,
      List.filterMap_cons, PublicContract.auditStep_all_public fv s e τ value log hdec hτ]
    by_cases hw : s ≤ τ ∧ τ ≤ e
    · simp [hw]
    · simp [hw]
  · intro before after key value log τ hsplit hdec hτ
    simp only [PrivateContract.QueryAuditLogs, hsplit, hs1, he1, List.filterMap_append,
      List.filterMap_cons, PrivateContract.auditStep_all_private fv s e τ value log hdec hτ]
    by_cases hw : s ≤ τ ∧ τ ≤ e
    · simp [hw]
    · simp [hw]

/-- C5 at a concrete input: one audit entry stamped 2023-11-14T22:13:20Z and the
window whose start and end both equal that instant; the entry is returned. -/
theorem C5_window_is_inclusive_witness :
    PublicContract.QueryAuditLogs
        (PublicContract.RegisterDocument (stubAt "t1" 1700000000) [] "d1" "BankA" "u1").2
        "all" "" "2023-11-14T22:13:20Z" "2023-11-14T22:13:20Z"
      = .ok ([] ++ (if (1700000000000000000 : Int) ≤ 1700000000000000000
              ∧ (1700000000000000000 : Int) ≤ 1700000000000000000
            then [⟨"t1", "d1", "BankA", "u1", "create", "2023-11-14T22:13:20Z"⟩] else [])
          ++ []) :=
  (C5_window_is_inclusive
    (PublicContract.RegisterDocument (stubAt "t1" 1700000000) [] "d1" "BankA" "u1").2
    (fun _ => []) "" "2023-11-14T22:13:20Z" "2023-11-14T22:13:20Z"
    1700000000000000000 1700000000000000000 (by rfl) (by rfl)).1
    [] [] "AUDIT_t1"
    (AuditLog.marshal ⟨"t1", "d1", "BankA", "u1", "create", "2023-11-14T22:13:20Z"⟩)
    ⟨"t1", "d1", "BankA", "u1", "create", "2023-11-14T22:13:20Z"⟩ 1700000000000000000
    (by rfl) (by rfl) (by rfl)

/-- C6, at a concrete input of the public chaincode: the document id is the bytes
64 FF 31 and the institution the bytes 42 61 6E 6B FE 41, neither valid UTF-8. The
create succeeds, and get-by-id on the same id returns a record whose documentId and
institution hold U+FFFD (EF BF BD) in place of the bytes FF and FE: not the fields
written. -/
theorem C6_counterexample_invalid_utf8_fields :
    (PublicContract.RegisterDocument (stubAt "t1" 1700000000) [] ⟨[100, 255, 49]⟩
        ⟨[66, 97, 110, 107, 254, 65]⟩ "u1").1 = none
    ∧ PublicContract.GetDocumentByID
        (PublicContract.RegisterDocument (stubAt "t1" 1700000000) [] ⟨[100, 255, 49]⟩
          ⟨[66, 97, 110, 107, 254, 65]⟩ "u1").2 ⟨[100, 255, 49]⟩
      = .ok ⟨⟨[100, 239, 191, 189, 49]⟩, ⟨[66, 97, 110, 107, 239, 191, 189, 65]⟩, "u1"⟩
    ∧ (⟨⟨[100, 239, 191, 189, 49]⟩, ⟨[66, 97, 110, 107, 239, 191, 189, 65]⟩, "u1"⟩
        : PublicDocument)
      ≠ ⟨⟨[100, 255, 49]⟩, ⟨[66, 97, 110, 107, 254, 65]⟩, "u1"⟩ := by
  refine ⟨by rfl, by rfl, by decide⟩

/-- C6 as amended: in both chaincodes a successful create followed by get-by-id on
the same id returns the fields written as JSON stores them, every byte that is not part
of a valid UTF-8 encoding replaced by U+FFFD; for field values that are valid UTF-8 it
returns exactly the fields written. This holds for every id and transaction id, also
when the id is the audit key of the transaction itself. -/
theorem C6_create_then_get (stub : Stub) (st st1 : Store) (pd pd1 : PrivateData)
    (documentId institution userId name path hash state : GoString) :
    (PublicContract.RegisterDocument stub st documentId institution userId = (none, st1) →
      PublicContract.GetDocumentByID st1 documentId
        = .ok ⟨documentId.viaJSON, institution.viaJSON, userId.viaJSON⟩
      ∧ (documentId.ValidUTF8 → institution.ValidUTF8 → userId.ValidUTF8 →
          PublicContract.GetDocumentByID st1 documentId
            = .ok ⟨documentId, institution, userId⟩))
    ∧ (PrivateContract.SavePrivateDocument stub pd documentId institution userId name path
          hash state = (none, pd1) →
      PrivateContract.GetPrivateDocumentByID pd1 documentId
        = .ok ⟨documentId.viaJSON, institution.viaJSON, userId.viaJSON, name.viaJSON,
            path.viaJSON, hash.viaJSON, state.viaJSON⟩
      ∧ (documentId.ValidUTF8 → institution.ValidUTF8 → userId.ValidUTF8 → name.ValidUTF8 →
          path.ValidUTF8 → hash.ValidUTF8 → state.ValidUTF8 →
          PrivateContract.GetPrivateDocumentByID pd1 documentId
            = .ok ⟨documentId, institution, userId, name, path, hash, state⟩)) := by
  constructor
  · intro h
    have hget : PublicContract.GetDocumentByID st1 documentId
        = .ok ⟨documentId.viaJSON, institution.viaJSON, userId.viaJSON⟩ := by
      rw [PublicContract.RegisterDocument_ok h]
      by_cases hk : ("AUDIT_" : GoString) ++ stub.txID = documentId
      · simp only [PublicContract.GetDocumentByID, hk, Store.get_put_same]
        rw [← hk, PublicDocument.unmarshal_auditLog]
      · simp only [PublicContract.GetDocumentByID, Store.get_put_other _ _ _ _ hk,
          Store.get_put_same, PublicDocument.decode_encode_document, PublicDocument.viaJSON]
    refine ⟨hget, ?_⟩
    intro h1 h2 h3
    have e1 : documentId.viaJSON = documentId := h1
    have e2 : institution.viaJSON = institution := h2
    have e3 : userId.viaJSON = userId := h3
    rw [hget, e1, e2, e3]
  · intro h
    obtain ⟨hdoc, _⟩ := PrivateContract.SavePrivateDocument_ok h
    have hget : PrivateContract.GetPrivateDocumentByID pd1 documentId
        = .ok ⟨documentId.viaJSON, institution.viaJSON, userId.viaJSON, name.viaJSON,
            path.viaJSON, hash.viaJSON, state.viaJSON⟩ := by
      simp only [PrivateContract.GetPrivateDocumentByID, PrivateContract.GetPrivateData, hdoc,
        Store.get_put_same, PrivateDocument.decode_encode_privateDocument,
        PrivateDocument.viaJSON]
    refine ⟨hget, ?_⟩
    intro h1 h2 h3 h4 h5 h6 h7
    have e1 : documentId.viaJSON = documentId := h1
    have e2 : institution.viaJSON = institution := h2
    have e3 : userId.viaJSON = userId := h3
    have e4 : name.viaJSON = name := h4
    have e5 : path.viaJSON = path := h5
    have e6 : hash.viaJSON = hash := h6
    have e7 : state.viaJSON = state := h7
    rw [hget, e1, e2, e3, e4, e5, e6, e7]

/-- C6 as amended, at a concrete input of the public chaincode: the document id is
AUDIT_t1 and the transaction is t1, so the audit entry is written over the document;
all fields are valid UTF-8. -/
theorem C6_create_then_get_witness :
    PublicContract.GetDocumentByID
        (PublicContract.RegisterDocument (stubAt "t1" 1700000000) [] "AUDIT_t1" "BankA"
          "u1").2 "AUDIT_t1"
      = .ok ⟨"AUDIT_t1", "BankA", "u1"⟩ :=
  ((C6_create_then_get (stubAt "t1" 1700000000) []
    (PublicContract.RegisterDocument (stubAt "t1" 1700000000) [] "AUDIT_t1" "BankA" "u1").2
    (fun _ => []) (fun _ => []) "AUDIT_t1" "BankA" "u1" "" "" "" "").1 (by rfl)).2
    (by decide) (by decide) (by decide)

/-- C7: evaluation of the public chaincode. After the single successful call
RegisterDocument("d1", "BankA", "u1") in transaction t1 on the empty ledger, no
document was registered under the id AUDIT_t1, and GetDocumentByID("AUDIT_t1") returns
a record all the same: the audit entry of the transaction decoded as a document. -/
theorem C7_getDocumentByID_reads_audit_entry :
    (PublicContract.RegisterDocument (stubAt "t1" 1700000000) [] "d1" "BankA" "u1").1 = none
    ∧ PublicContract.GetDocumentByID
        (PublicContract.RegisterDocument (stubAt "t1" 1700000000) [] "d1" "BankA" "u1").2
        "AUDIT_t1"
      = .ok ⟨"d1", "BankA", "u1"⟩
    ∧ PrivateContract.GetPrivateDocumentByID
        (PrivateContract.SavePrivateDocument (stubAt "t1" 1700000000) (fun _ => [])
          "d1" "BankA" "u1" "file.pdf" "/path" "h123" "DRAFT").2 "AUDIT_t1"
      = .error "not found" := by
  refine ⟨by rfl, by rfl, by rfl⟩

/-- C8, at a concrete input: the bytes stored under x are not valid JSON, decoding
them fails, and both point lookups return a record (the zero record) and no error. -/
theorem C8_counterexample_invalid_bytes :
    (PublicDocument.unmarshal (.invalid 0)).2 = false
    ∧ PublicContract.GetDocumentByID [("x", .invalid 0)] "x" = .ok ⟨"", "", ""⟩
    ∧ (PrivateDocument.unmarshal (.invalid 0)).2 = false
    ∧ PrivateContract.GetPrivateDocumentByID
        (fun c => if c = "collectionPrivateDocs" then [("x", .invalid 0)] else []) "x"
      = .ok ⟨"", "", "", "", "", "", ""⟩ := by
  refine ⟨by rfl, by rfl, by rfl, by rfl⟩

/-- C8 as amended: for every id whose stored bytes fail to deserialize as a document
record, GetDocumentByID and GetPrivateDocumentByID return no error: they return the
record the decoder left, which is the zero record when the bytes are not a JSON object;
the decoding error is dropped. -/
theorem C8_point_lookup_drops_decode_error (st : Store) (pd : PrivateData) (id : GoString)
    (data : Bytes) :
    (st.get id = some data → (PublicDocument.unmarshal data).2 = false →
      PublicContract.GetDocumentByID st id = .ok (PublicDocument.unmarshal data).1
      ∧ ((∀ ms, data ≠ .object ms) →
          PublicContract.GetDocumentByID st id = .ok PublicDocument.zero))
    ∧ ((pd "collectionPrivateDocs").get id = some data →
        (PrivateDocument.unmarshal data).2 = false →
      PrivateContract.GetPrivateDocumentByID pd id = .ok (PrivateDocument.unmarshal data).1
      ∧ ((∀ ms, data ≠ .object ms) →
          PrivateContract.GetPrivateDocumentByID pd id = .ok PrivateDocument.zero)) := by
  constructor
  · intro hget _
    refine ⟨by simp [PublicContract.GetDocumentByID, hget], fun hno => ?_⟩
    cases data with
    | invalid t => simp [PublicContract.GetDocumentByID, hget, PublicDocument.unmarshal,
        CertiChain.unmarshal]
    | value v => cases v <;> simp [PublicContract.GetDocumentByID, hget,
        PublicDocument.unmarshal, CertiChain.unmarshal]
    | object ms => exact absurd rfl (hno ms)
  · intro hget _
    refine ⟨by simp [PrivateContract.GetPrivateDocumentByID, PrivateContract.GetPrivateData,
      hget], fun hno => ?_⟩
    cases data with
    | invalid t => simp [PrivateContract.GetPrivateDocumentByID,
        PrivateContract.GetPrivateData, hget, PrivateDocument.unmarshal, CertiChain.unmarshal]
    | value v => cases v <;> simp [PrivateContract.GetPrivateDocumentByID,
        PrivateContract.GetPrivateData, hget, PrivateDocument.unmarshal, CertiChain.unmarshal]
    | object ms => exact absurd rfl (hno ms)

/-- C8 as amended, at a concrete input: under the id d9 the public ledger holds an
object whose institution member is a number; the lookup returns the fields that did
decode and no error. -/
theorem C8_point_lookup_drops_decode_error_witness :
    PublicContract.GetDocumentByID
        [("d9", .object [("documentId", .str "d9"), ("institution", .other 7),
          ("userId", .str "u1")])] "d9"
      = .ok ⟨"d9", "", "u1"⟩ :=
  ((C8_point_lookup_drops_decode_error
    [("d9", .object [("documentId", .str "d9"), ("institution", .other 7),
      ("userId", .str "u1")])]
    (fun _ => []) "d9"
    (.object [("documentId", .str "d9"), ("institution", .other 7), ("userId", .str "u1")])).1
    (by rfl) (by rfl)).1

/-- C10: for every id that has no record in collectionPrivateDocs and every newState,
UpdateDocumentState returns the error "document not found" and issues no write: the
private data it leaves, collectionPrivateDocs and collectionAuditLogs included, is the
private data it was given. -/
theorem C10_update_missing_writes_nothing (stub : Stub) (pd : PrivateData)
    (id newState : GoString) (hmissing : (pd "collectionPrivateDocs").get id = none) :
    PrivateContract.UpdateDocumentState stub pd id newState = (some "document not found", pd)
    ∧ (PrivateContract.UpdateDocumentState stub pd id newState).2 "collectionPrivateDocs"
        = pd "collectionPrivateDocs"
    ∧ (PrivateContract.UpdateDocumentState stub pd id newState).2 "collectionAuditLogs"
        = pd "collectionAuditLogs" := by
  have h : PrivateContract.UpdateDocumentState stub pd id newState
      = (some "document not found", pd) := by
    simp [PrivateContract.UpdateDocumentState, PrivateContract.GetPrivateData, hmissing]
  exact ⟨h, by rw [h], by rw [h]⟩

/-- C10 at a concrete input: the id d7 on an empty ledger. -/
theorem C10_update_missing_writes_nothing_witness :
    (PrivateContract.UpdateDocumentState (stubAt "t1" 1700000000) (fun _ => []) "d7"
        "APPROVED").1 = some "document not found"
    ∧ (PrivateContract.UpdateDocumentState (stubAt "t1" 1700000000) (fun _ => []) "d7"
        "APPROVED").2 "collectionAuditLogs" = [] :=
  ⟨congrArg Prod.fst
      (C10_update_missing_writes_nothing (stubAt "t1" 1700000000) (fun _ => []) "d7"
        "APPROVED" (by rfl)).1,
    (C10_update_missing_writes_nothing (stubAt "t1" 1700000000) (fun _ => []) "d7"
        "APPROVED" (by rfl)).2.2⟩

/-- C9: when the record stored under id in collectionPrivateDocs is the encoding of a
document (as SavePrivateDocument writes it), a successful UpdateDocumentState(id,
newState) stores under id the encoding of the same document with only state replaced by
newState, so documentId, institution, userId, name, path and hash keep their stored
values, and every other key of collectionPrivateDocs reads as before. Read back,
the record has the fields as JSON stores them, which are the fields themselves when
they are valid UTF-8. -/
theorem C9_update_changes_only_state (stub : Stub) (pd pd1 : PrivateData)
    (doc : PrivateDocument) (id newState : GoString)
    (hstored : (pd "collectionPrivateDocs").get id = some doc.marshal)
    (hupd : PrivateContract.UpdateDocumentState stub pd id newState = (none, pd1)) :
    (pd1 "collectionPrivateDocs").get id
        = some (PrivateDocument.marshal ⟨doc.DocumentID, doc.Institution, doc.UserID,
            doc.Name, doc.Path, doc.Hash, newState⟩)
    ∧ PrivateContract.GetPrivateDocumentByID pd1 id
        = .ok ⟨doc.DocumentID.viaJSON, doc.Institution.viaJSON, doc.UserID.viaJSON,
            doc.Name.viaJSON, doc.Path.viaJSON, doc.Hash.viaJSON, newState.viaJSON⟩
    ∧ (doc.viaJSON = doc → newState.ValidUTF8 →
        PrivateContract.GetPrivateDocumentByID pd1 id
          = .ok ⟨doc.DocumentID, doc.Institution, doc.UserID, doc.Name, doc.Path, doc.Hash,
              newState⟩)
    ∧ (∀ k, k ≠ id →
        (pd1 "collectionPrivateDocs").get k = (pd "collectionPrivateDocs").get k) := by
  obtain ⟨data, hget, hdoc, _⟩ := PrivateContract.UpdateDocumentState_ok hupd
  rw [hstored] at hget
  have hdata : data = doc.marshal := (Option.some.inj hget).symm
  subst hdata
  simp only [PrivateDocument.decode_encode_privateDocument] at hdoc
  have hm : PrivateDocument.marshal { doc.viaJSON with State := newState }
      = PrivateDocument.marshal ⟨doc.DocumentID, doc.Institution, doc.UserID, doc.Name,
          doc.Path, doc.Hash, newState⟩ := by
    simp [PrivateDocument.marshal, PrivateDocument.viaJSON, GoString.toText_viaJSON]
  rw [hm] at hdoc
  have hread : PrivateContract.GetPrivateDocumentByID pd1 id
      = .ok ⟨doc.DocumentID.viaJSON, doc.Institution.viaJSON, doc.UserID.viaJSON,
          doc.Name.viaJSON, doc.Path.viaJSON, doc.Hash.viaJSON, newState.viaJSON⟩ := by
    simp only [PrivateContract.GetPrivateDocumentByID, PrivateContract.GetPrivateData, hdoc,
      Store.get_put_same, PrivateDocument.decode_encode_privateDocument,
      PrivateDocument.viaJSON]
  refine ⟨?_, hread, ?_, ?_⟩
  · rw [hdoc, Store.get_put_same]
  · intro hv hn
    have hn2 : newState.viaJSON = newState := hn
    have h1 : doc.DocumentID.viaJSON = doc.DocumentID := by
      conv_rhs => rw [← hv]
      rfl
    have h2 : doc.Institution.viaJSON = doc.Institution := by
      conv_rhs => rw [← hv]
      rfl
    have h3 : doc.UserID.viaJSON = doc.UserID := by
      conv_rhs => rw [← hv]
      rfl
    have h4 : doc.Name.viaJSON = doc.Name := by
      conv_rhs => rw [← hv]
      rfl
    have h5 : doc.Path.viaJSON = doc.Path := by
      conv_rhs => rw [← hv]
      rfl
    have h6 : doc.Hash.viaJSON = doc.Hash := by
      conv_rhs => rw [← hv]
      rfl
    rw [hread, h1, h2, h3, h4, h5, h6, hn2]
  · intro k hk
    rw [hdoc, Store.get_put_other _ _ _ _ (Ne.symm hk)]

/-- C9 at a concrete input: two saved documents, the state of d2 is updated and d3
reads as before. -/
theorem C9_update_changes_only_state_witness :
    PrivateContract.GetPrivateDocumentByID
        (PrivateContract.UpdateDocumentState (stubAt "t3" 1700000200)
          (fun c => if c = "collectionPrivateDocs" then
            [("d2", PrivateDocument.marshal
                ⟨"d2", "BankB", "u2", "file.pdf", "/path", "h123", "DRAFT"⟩),
              ("d3", PrivateDocument.marshal
                ⟨"d3", "BankC", "u3", "b.pdf", "/b", "h456", "DRAFT"⟩)] else [])
          "d2" "APPROVED").2 "d2"
      = .ok ⟨"d2", "BankB", "u2", "file.pdf", "/path", "h123", "APPROVED"⟩ :=
  (C9_update_changes_only_state (stubAt "t3" 1700000200)
    (fun c => if c = "collectionPrivateDocs" then
      [("d2", PrivateDocument.marshal
          ⟨"d2", "BankB", "u2", "file.pdf", "/path", "h123", "DRAFT"⟩),
        ("d3", PrivateDocument.marshal
          ⟨"d3", "BankC", "u3", "b.pdf", "/b", "h456", "DRAFT"⟩)] else [])
    (PrivateContract.UpdateDocumentState (stubAt "t3" 1700000200)
      (fun c => if c = "collectionPrivateDocs" then
        [("d2", PrivateDocument.marshal
            ⟨"d2", "BankB", "u2", "file.pdf", "/path", "h123", "DRAFT"⟩),
          ("d3", PrivateDocument.marshal
            ⟨"d3", "BankC", "u3", "b.pdf", "/b", "h456", "DRAFT"⟩)] else [])
      "d2" "APPROVED").2
    ⟨"d2", "BankB", "u2", "file.pdf", "/path", "h123", "DRAFT"⟩ "d2" "APPROVED"
    (by rfl) (by rfl)).2.2.1 (by decide) (by decide)

/-- C11, at a concrete input: SavePrivateDocument on the empty ledger in transaction
t1 with the institution given as the bytes 42 FF, which are not valid UTF-8. The call
succeeds; the audit entry stored at AUDIT_t1 holds the institution B followed by U+FFFD,
and decodes to an entry whose institution (bytes 42 EF BF BD) is not the one given. -/
theorem C11_counterexample_invalid_utf8_institution :
    (PrivateContract.SavePrivateDocument (stubAt "t1" 1700000000) (fun _ => [])
        "d2" ⟨[66, 255]⟩ "u2" "file.pdf" "/path" "h123" "DRAFT").1 = none
    ∧ ((PrivateContract.SavePrivateDocument (stubAt "t1" 1700000000) (fun _ => [])
          "d2" ⟨[66, 255]⟩ "u2" "file.pdf" "/path" "h123" "DRAFT").2
        "collectionAuditLogs").get "AUDIT_t1"
      = some (.object [("txID", .str "t1"), ("documentId", .str "d2"),
          ("institution", .str (String.mk ['B', Char.ofNat 0xFFFD])), ("userId", .str "u2"),
          ("operation", .str "create"), ("newState", .str "DRAFT"),
          ("timestamp", .str "2023-11-14T22:13:20Z")])
    ∧ PrivateAuditLog.unmarshal (.object [("txID", .str "t1"), ("documentId", .str "d2"),
          ("institution", .str (String.mk ['B', Char.ofNat 0xFFFD])), ("userId", .str "u2"),
          ("operation", .str "create"), ("newState", .str "DRAFT"),
          ("timestamp", .str "2023-11-14T22:13:20Z")])
      = (⟨"t1", "d2", ⟨[66, 239, 191, 189]⟩, "u2", "create", "", "DRAFT",
          "2023-11-14T22:13:20Z"⟩, true)
    ∧ (⟨[66, 239, 191, 189]⟩ : GoString) ≠ ⟨[66, 255]⟩ := by
  refine ⟨by rfl, by rfl, by rfl, by decide⟩

/-- C11 as amended: a successful SavePrivateDocument in a transaction t whose audit key
is not in use leaves collectionAuditLogs as it was plus exactly one entry at key
AUDIT_+t: the stored object has the members txID, documentId, institution, userId,
operation = create, newState and timestamp and no oldState member, each string written
with U+FFFD in place of every byte that is not part of a valid UTF-8 encoding; it
decodes to the entry with empty oldState, which carries t and the given documentId,
institution, userId and state when these are valid UTF-8; every other key reads as
before and the collection has one more pair. -/
theorem C11_save_appends_one_create_entry (stub : Stub) (pd pd1 : PrivateData)
    (documentId institution userId name path hash state : GoString)
    (hfresh : (pd "collectionAuditLogs").get ("AUDIT_" ++ stub.txID) = none)
    (hsave : PrivateContract.SavePrivateDocument stub pd documentId institution userId name
      path hash state = (none, pd1)) :
    (pd1 "collectionAuditLogs").get ("AUDIT_" ++ stub.txID)
        = some (.object [("txID", .str stub.txID.toText),
            ("documentId", .str documentId.toText), ("institution", .str institution.toText),
            ("userId", .str userId.toText), ("operation", .str "create"),
            ("newState", .str state.toText), ("timestamp", .str stub.timestamp.toText)])
    ∧ PrivateAuditLog.unmarshal (.object [("txID", .str stub.txID.toText),
            ("documentId", .str documentId.toText), ("institution", .str institution.toText),
            ("userId", .str userId.toText), ("operation", .str "create"),
            ("newState", .str state.toText), ("timestamp", .str stub.timestamp.toText)])
        = (⟨stub.txID.viaJSON, documentId.viaJSON, institution.viaJSON, userId.viaJSON,
            "create", "", state.viaJSON, stub.timestamp⟩, true)
    ∧ (stub.txID.ValidUTF8 → documentId.ValidUTF8 → institution.ValidUTF8 →
        userId.ValidUTF8 → state.ValidUTF8 →
        PrivateAuditLog.unmarshal (.object [("txID", .str stub.txID.toText),
            ("documentId", .str documentId.toText), ("institution", .str institution.toText),
            ("userId", .str userId.toText), ("operation", .str "create"),
            ("newState", .str state.toText), ("timestamp", .str stub.timestamp.toText)])
          = (⟨stub.txID, documentId, institution, userId, "create", "", state,
              stub.timestamp⟩, true))
    ∧ (∀ k, k ≠ "AUDIT_" ++ stub.txID →
        (pd1 "collectionAuditLogs").get k = (pd "collectionAuditLogs").get k)
    ∧ (pd1 "collectionAuditLogs").length = (pd "collectionAuditLogs").length + 1 := by
  obtain ⟨_, hlog⟩ := PrivateContract.SavePrivateDocument_ok hsave
  have htsv : stub.timestamp.viaJSON = stub.timestamp := GoString.viaJSON_ofString _
  have hm : PrivateAuditLog.marshal
      ⟨stub.txID, documentId, institution, userId, "create", "", state, stub.timestamp⟩
      = .object [("txID", .str stub.txID.toText), ("documentId", .str documentId.toText),
          ("institution", .str institution.toText), ("userId", .str userId.toText),
          ("operation", .str "create"), ("newState", .str state.toText),
          ("timestamp", .str stub.timestamp.toText)] := by
    simp [PrivateAuditLog.marshal, GoString.toText_ofString]
  have hdec : PrivateAuditLog.unmarshal (.object [("txID", .str stub.txID.toText),
        ("documentId", .str documentId.toText), ("institution", .str institution.toText),
        ("userId", .str userId.toText), ("operation", .str "create"),
        ("newState", .str state.toText), ("timestamp", .str stub.timestamp.toText)])
      = (⟨stub.txID.viaJSON, documentId.viaJSON, institution.viaJSON, userId.viaJSON,
          "create", "", state.viaJSON, stub.timestamp⟩, true) := by
    rw [← hm, PrivateAuditLog.decode_encode_privateLog]
    simp only [PrivateAuditLog.viaJSON, htsv, GoString.viaJSON_ofString]
  refine ⟨?_, hdec, ?_, ?_, ?_⟩
  · rw [hlog, Store.get_put_same, hm]
  · intro h1 h2 h3 h4 h5
    have e1 : stub.txID.viaJSON = stub.txID := h1
    have e2 : documentId.viaJSON = documentId := h2
    have e3 : institution.viaJSON = institution := h3
    have e4 : userId.viaJSON = userId := h4
    have e5 : state.viaJSON = state := h5
    rw [hdec, e1, e2, e3, e4, e5]
  · intro k hk
    rw [hlog, Store.get_put_other _ _ _ _ (Ne.symm hk)]
  · rw [hlog, Store.length_put_of_get_none _ _ _ hfresh]

/-- C11 as amended, at a concrete input: the first save on an empty ledger, in
transaction t1, all arguments valid UTF-8. -/
theorem C11_save_appends_one_create_entry_witness :
    PrivateAuditLog.unmarshal (.object [("txID", .str (GoString.toText "t1")),
            ("documentId", .str (GoString.toText "d2")),
            ("institution", .str (GoString.toText "BankB")),
            ("userId", .str (GoString.toText "u2")), ("operation", .str "create"),
            ("newState", .str (GoString.toText "DRAFT")),
            ("timestamp", .str (stubAt "t1" 1700000000).timestamp.toText)])
          = (⟨"t1", "d2", "BankB", "u2", "create", "", "DRAFT",
              (stubAt "t1" 1700000000).timestamp⟩, true) :=
  (C11_save_appends_one_create_entry (stubAt "t1" 1700000000) (fun _ => [])
    (PrivateContract.SavePrivateDocument (stubAt "t1" 1700000000) (fun _ => [])
      "d2" "BankB" "u2" "file.pdf" "/path" "h123" "DRAFT").2
    "d2" "BankB" "u2" "file.pdf" "/path" "h123" "DRAFT" (by rfl) (by rfl)).2.2.1
    (by decide) (by decide) (by decide) (by decide) (by decide)

theorem PublicContract.auditStep_unknown_public (ft fv : GoString) (start stop : Int)
    (value : Bytes) (h1 : ft ≠ "documentId") (h2 : ft ≠ "institution") (h3 : ft ≠ "userId")
    (h4 : ft ≠ "all") : PublicContract.auditStep ft fv start stop value = none := by
  unfold PublicContract.auditStep
  simp only [h1, h2, h3, h4, if_false]
  split
  · rfl
  · split
    · rfl
    · split <;> rfl

theorem PrivateContract.auditStep_unknown_private (ft fv : GoString) (start stop : Int)
    (value : Bytes) (h1 : ft ≠ "documentId") (h2 : ft ≠ "institution") (h3 : ft ≠ "userId")
    (h4 : ft ≠ "all") : PrivateContract.auditStep ft fv start stop value = none := by
  unfold PrivateContract.auditStep
  simp only [h1, h2, h3, h4, if_false]
  split
  · rfl
  · split
    · rfl
    · split <;> rfl

/-- C12: in both chaincodes, for every store contents, filterValue, startDate and
endDate and every filterType other than documentId, institution, userId and all,
QueryAuditLogs returns the empty sequence and no error. -/
theorem C12_unknown_filter_is_empty (st : Store) (pd : PrivateData)
    (ft fv startDate endDate : GoString)
    (h1 : ft ≠ "documentId") (h2 : ft ≠ "institution") (h3 : ft ≠ "userId")
    (h4 : ft ≠ "all") :
    PublicContract.QueryAuditLogs st ft fv startDate endDate = .ok []
    ∧ PrivateContract.QueryAuditLogs pd ft fv startDate endDate = .ok [] := by
  constructor
  · simp [PublicContract.QueryAuditLogs,
      PublicContract.auditStep_unknown_public ft fv _ _ _ h1 h2 h3 h4]
  · simp [PrivateContract.QueryAuditLogs,
      PrivateContract.auditStep_unknown_private ft fv _ _ _ h1 h2 h3 h4]

/-- C12 at a concrete input: filter type "state" on a ledger with one audit entry
inside the window. -/
theorem C12_unknown_filter_is_empty_witness :
    PublicContract.QueryAuditLogs
        (PublicContract.RegisterDocument (stubAt "t1" 1700000000) [] "d1" "BankA" "u1").2
        "state" "d1" "2023-01-01T00:00:00Z" "2024-01-01T00:00:00Z" = .ok [] :=
  (C12_unknown_filter_is_empty
    (PublicContract.RegisterDocument (stubAt "t1" 1700000000) [] "d1" "BankA" "u1").2
    (fun _ => []) "state" "d1" "2023-01-01T00:00:00Z" "2024-01-01T00:00:00Z"
    (by decide) (by decide) (by decide) (by decide)).1

theorem Store.range_all (s : Store) : s.range "" "" = s := by
  simp [Store.range]

theorem Store.mem_put_cases {s : Store} {k : GoString} {v : Bytes} {kv : GoString × Bytes}
    (h : kv ∈ Store.put s k v) : kv = (k, v) ∨ kv ∈ s := by
  induction s with
  | nil =>
    simp [Store.put] at h
    exact Or.inl h
  | cons hd rest ih =>
    obtain ⟨k1, v1⟩ := hd
    by_cases h1 : k1 = k
    · simp [Store.put, h1] at h
      rcases h with h | h
      · exact Or.inl h
      · exact Or.inr (List.mem_cons_of_mem _ h)
    · by_cases h2 : strLt k k1 = true
      · simp [Store.put, h1, h2] at h
        rcases h with h | h | h
        · exact Or.inl h
        · exact Or.inr (by simp [h])
        · exact Or.inr (by simp [h])
      · simp [Store.put, h1, h2] at h
        rcases h with h | h
        · exact Or.inr (by simp [h])
        · rcases ih h with h3 | h3
          · exact Or.inl h3
          · exact Or.inr (List.mem_cons_of_mem _ h3)

/-- The collection of documents stays made of encoded documents under a successful
`SavePrivateDocument`. -/
theorem PrivateContract.DocsWritten_save {stub : Stub} {pd pd1 : PrivateData}
    {documentId institution userId name path hash state : GoString}
    (hw : PrivateContract.DocsWritten (pd "collectionPrivateDocs"))
    (h : PrivateContract.SavePrivateDocument stub pd documentId institution userId name path
      hash state = (none, pd1)) :
    PrivateContract.DocsWritten (pd1 "collectionPrivateDocs") := by
  obtain ⟨hdoc, _⟩ := PrivateContract.SavePrivateDocument_ok h
  intro kv hkv
  rw [hdoc] at hkv
  rcases Store.mem_put_cases hkv with h1 | h1
  · exact ⟨_, by rw [h1]⟩
  · exact hw kv h1

/-- The collection of documents stays made of encoded documents under a successful
`UpdateDocumentState`. -/
theorem PrivateContract.DocsWritten_update {stub : Stub} {pd pd1 : PrivateData}
    {documentId newState : GoString}
    (hw : PrivateContract.DocsWritten (pd "collectionPrivateDocs"))
    (h : PrivateContract.UpdateDocumentState stub pd documentId newState = (none, pd1)) :
    PrivateContract.DocsWritten (pd1 "collectionPrivateDocs") := by
  obtain ⟨data, _, hdoc, _⟩ := PrivateContract.UpdateDocumentState_ok h
  intro kv hkv
  rw [hdoc] at hkv
  rcases Store.mem_put_cases hkv with h1 | h1
  · exact ⟨_, by rw [h1]⟩
  · exact hw kv h1

theorem PrivateContract.scan_of_written (l : List (GoString × Bytes)) (p : PrivateDocument → Prop)
    [DecidablePred p] (hw : PrivateContract.DocsWritten l) :
    l.map Prod.snd
        = (l.map fun kv => (PrivateDocument.unmarshal kv.2).1).map PrivateDocument.marshal
    ∧ (l.filterMap fun record =>
          if (PrivateDocument.unmarshal record.2).2 ∧ p (PrivateDocument.unmarshal record.2).1
          then some (PrivateDocument.unmarshal record.2).1 else none)
        = (l.map fun kv => (PrivateDocument.unmarshal kv.2).1).filter fun d => p d := by
  induction l with
  | nil => simp
  | cons hd rest ih =>
    obtain ⟨d, hd2⟩ := hw hd (List.mem_cons_self _ _)
    obtain ⟨ih1, ih2⟩ := ih (fun kv hkv => hw kv (List.mem_cons_of_mem _ hkv))
    constructor
    · simp only [List.map_cons, hd2, PrivateDocument.decode_encode_privateDocument,
        PrivateDocument.marshal_viaJSON_privateDocument]
      rw [ih1]
    · by_cases hp : p d.viaJSON
      · simp only [List.filterMap_cons, List.map_cons, List.filter_cons, hd2,
          PrivateDocument.decode_encode_privateDocument, hp, and_self, if_true, ih2,
          decide_True]
      · simp only [List.filterMap_cons, List.map_cons, List.filter_cons, hd2,
          PrivateDocument.decode_encode_privateDocument, hp, and_false, if_false, ih2,
          decide_False]
        simp

/-- C13: in the private chaincode, when every value of collectionPrivateDocs is the
encoding of a document (what SavePrivateDocument and UpdateDocumentState write), the
stored values are, pair by pair, the encodings of the decoded documents, and
QueryPrivateByInstitution(v) returns exactly those of the decoded documents whose
institution equals v, one per stored pair, in key order; the result is the same for
any private data with the same collectionPrivateDocs, whatever its audit entries. -/
theorem C13_private_query_by_institution (pd : PrivateData) (v : GoString)
    (hw : PrivateContract.DocsWritten (pd "collectionPrivateDocs")) :
    (pd "collectionPrivateDocs").map Prod.snd
        = ((pd "collectionPrivateDocs").map fun kv =>
            (PrivateDocument.unmarshal kv.2).1).map PrivateDocument.marshal
    ∧ PrivateContract.QueryPrivateByInstitution pd v
        = .ok (((pd "collectionPrivateDocs").map fun kv =>
            (PrivateDocument.unmarshal kv.2).1).filter fun d => d.Institution = v)
    ∧ (∀ pd2 : PrivateData, pd2 "collectionPrivateDocs" = pd "collectionPrivateDocs" →
        PrivateContract.QueryPrivateByInstitution pd2 v
          = PrivateContract.QueryPrivateByInstitution pd v) := by
  obtain ⟨h1, h2⟩ := PrivateContract.scan_of_written (pd "collectionPrivateDocs")
    (fun d => d.Institution = v) hw
  refine ⟨h1, ?_, ?_⟩
  · simp only [PrivateContract.QueryPrivateByInstitution, Store.range_all]
    rw [h2]
  · intro pd2 hpd
    simp only [PrivateContract.QueryPrivateByInstitution, hpd]

/-- C13 at a concrete input: two documents saved in two transactions, one of BankB
and one of BankC; the query for BankB returns the first only. -/
theorem C13_private_query_by_institution_witness :
    PrivateContract.QueryPrivateByInstitution
        (PrivateContract.SavePrivateDocument (stubAt "t2" 1700000100)
          (PrivateContract.SavePrivateDocument (stubAt "t1" 1700000000) (fun _ => [])
            "d2" "BankB" "u2" "file.pdf" "/path" "h123" "DRAFT").2
          "d3" "BankC" "u3" "b.pdf" "/b" "h456" "DRAFT").2 "BankB"
      = .ok [⟨"d2", "BankB", "u2", "file.pdf", "/path", "h123", "DRAFT"⟩] :=
  (C13_private_query_by_institution
    (PrivateContract.SavePrivateDocument (stubAt "t2" 1700000100)
      (PrivateContract.SavePrivateDocument (stubAt "t1" 1700000000) (fun _ => [])
        "d2" "BankB" "u2" "file.pdf" "/path" "h123" "DRAFT").2
      "d3" "BankC" "u3" "b.pdf" "/b" "h456" "DRAFT").2 "BankB"
    (@PrivateContract.DocsWritten_save (stubAt "t2" 1700000100)
      (PrivateContract.SavePrivateDocument (stubAt "t1" 1700000000) (fun _ => [])
        "d2" "BankB" "u2" "file.pdf" "/path" "h123" "DRAFT").2
      (PrivateContract.SavePrivateDocument (stubAt "t2" 1700000100)
        (PrivateContract.SavePrivateDocument (stubAt "t1" 1700000000) (fun _ => [])
          "d2" "BankB" "u2" "file.pdf" "/path" "h123" "DRAFT").2
        "d3" "BankC" "u3" "b.pdf" "/b" "h456" "DRAFT").2
      "d3" "BankC" "u3" "b.pdf" "/b" "h456" "DRAFT"
      (@PrivateContract.DocsWritten_save (stubAt "t1" 1700000000) (fun _ => [])
        (PrivateContract.SavePrivateDocument (stubAt "t1" 1700000000) (fun _ => [])
          "d2" "BankB" "u2" "file.pdf" "/path" "h123" "DRAFT").2
        "d2" "BankB" "u2" "file.pdf" "/path" "h123" "DRAFT"
        (fun _ h => absurd h (List.not_mem_nil _)) (by rfl))
      (by rfl))).2.1

/-- C14: evaluation of RegisterDocument("d1", "BankA", "u1") in transaction t1 with
commit timestamp 1700000000 s on two peers, one running in UTC and one in a zone three
hours west of it. The timestamp written is the commit time shown in the zone of the
peer, so the two peers write different audit entries under AUDIT_t1. -/
theorem C14_timestamp_depends_on_peer_zone :
    (PublicContract.RegisterDocument ⟨"t1", 1700000000, 0, 0, fun _ _ => none⟩ []
        "d1" "BankA" "u1").2.get "AUDIT_t1"
      = some (AuditLog.marshal ⟨"t1", "d1", "BankA", "u1", "create", "2023-11-14T22:13:20Z"⟩)
    ∧ (PublicContract.RegisterDocument ⟨"t1", 1700000000, 0, -10800, fun _ _ => none⟩ []
        "d1" "BankA" "u1").2.get "AUDIT_t1"
      = some (AuditLog.marshal
          ⟨"t1", "d1", "BankA", "u1", "create", "2023-11-14T19:13:20-03:00"⟩)
    ∧ AuditLog.marshal ⟨"t1", "d1", "BankA", "u1", "create", "2023-11-14T22:13:20Z"⟩
      ≠ AuditLog.marshal ⟨"t1", "d1", "BankA", "u1", "create", "2023-11-14T19:13:20-03:00"⟩
    ∧ ((PrivateContract.SavePrivateDocument ⟨"t1", 1700000000, 0, 0, fun _ _ => none⟩
        (fun _ => []) "d1" "BankA" "u1" "a.pdf" "/a" "h1" "DRAFT").2
          "collectionAuditLogs").get "AUDIT_t1"
      = some (PrivateAuditLog.marshal
          ⟨"t1", "d1", "BankA", "u1", "create", "", "DRAFT", "2023-11-14T22:13:20Z"⟩)
    ∧ ((PrivateContract.SavePrivateDocument ⟨"t1", 1700000000, 0, -10800, fun _ _ => none⟩
        (fun _ => []) "d1" "BankA" "u1" "a.pdf" "/a" "h1" "DRAFT").2
          "collectionAuditLogs").get "AUDIT_t1"
      = some (PrivateAuditLog.marshal
          ⟨"t1", "d1", "BankA", "u1", "create", "", "DRAFT", "2023-11-14T19:13:20-03:00"⟩) := by
  refine ⟨by rfl, by rfl, by decide, by rfl, by rfl⟩

theorem PublicContract.get_after_register {stub : Stub} {st st1 : Store}
    {documentId institution userId : GoString}
    (h : PublicContract.RegisterDocument stub st documentId institution userId = (none, st1)) :
    PublicContract.GetDocumentByID st1 documentId
      = .ok ⟨documentId.viaJSON, institution.viaJSON, userId.viaJSON⟩ := by
  rw [PublicContract.RegisterDocument_ok h]
  by_cases hk : ("AUDIT_" : GoString) ++ stub.txID = documentId
  · simp only [PublicContract.GetDocumentByID, hk, Store.get_put_same]
    rw [← hk, PublicDocument.unmarshal_auditLog]
  · simp only [PublicContract.GetDocumentByID, Store.get_put_other _ _ _ _ hk,
      Store.get_put_same, PublicDocument.decode_encode_document, PublicDocument.viaJSON]

theorem PrivateContract.get_after_save {stub : Stub} {pd pd1 : PrivateData}
    {documentId institution userId name path hash state : GoString}
    (h : PrivateContract.SavePrivateDocument stub pd documentId institution userId name path
      hash state = (none, pd1)) :
    PrivateContract.GetPrivateDocumentByID pd1 documentId
      = .ok ⟨documentId.viaJSON, institution.viaJSON, userId.viaJSON, name.viaJSON,
          path.viaJSON, hash.viaJSON, state.viaJSON⟩ := by
  obtain ⟨hdoc, _⟩ := PrivateContract.SavePrivateDocument_ok h
  simp only [PrivateContract.GetPrivateDocumentByID, PrivateContract.GetPrivateData, hdoc,
    Store.get_put_same, PrivateDocument.decode_encode_privateDocument, PrivateDocument.viaJSON]

/-- C15, at a concrete input of the public chaincode: d1 is registered in transaction
t1 and registered again in transaction t2 with the institution given as the bytes
42 FF, which are not valid UTF-8. The second create succeeds, and get-by-id returns the
institution B followed by U+FFFD (bytes 42 EF BF BD): not the field of the second
call. -/
theorem C15_counterexample_invalid_utf8_institution :
    (PublicContract.RegisterDocument (stubAt "t2" 1700000100)
        (PublicContract.RegisterDocument (stubAt "t1" 1700000000) [] "d1" "BankA" "u1").2
        "d1" ⟨[66, 255]⟩ "u9").1 = none
    ∧ PublicContract.GetDocumentByID
        (PublicContract.RegisterDocument (stubAt "t2" 1700000100)
          (PublicContract.RegisterDocument (stubAt "t1" 1700000000) [] "d1" "BankA" "u1").2
          "d1" ⟨[66, 255]⟩ "u9").2 "d1"
      = .ok ⟨"d1", ⟨[66, 239, 191, 189]⟩, "u9"⟩
    ∧ (⟨"d1", ⟨[66, 239, 191, 189]⟩, "u9"⟩ : PublicDocument) ≠ ⟨"d1", ⟨[66, 255]⟩, "u9"⟩ := by
  refine ⟨by rfl, by rfl, by decide⟩

/-- C15 as amended: in both chaincodes, when a record is already stored under id and
the store accepts the writes of the call, a create with that id returns no error, and
get-by-id afterwards returns the fields of this call only, as JSON stores them (every
byte that is not part of a valid UTF-8 encoding replaced by U+FFFD): exactly the fields
of this call when they are valid UTF-8. -/
theorem C15_second_create_overwrites (stub : Stub) (st : Store) (pd : PrivateData)
    (old oldPrivate : Bytes) (id institution userId name path hash state : GoString)
    (_hstored : st.get id = some old)
    (_hstoredPrivate : (pd "collectionPrivateDocs").get id = some oldPrivate)
    (hacc : stub.putErr "" id = none ∧ stub.putErr "" ("AUDIT_" ++ stub.txID) = none)
    (haccPrivate : stub.putErr "collectionPrivateDocs" id = none
      ∧ stub.putErr "collectionAuditLogs" ("AUDIT_" ++ stub.txID) = none) :
    (∃ st2, PublicContract.RegisterDocument stub st id institution userId = (none, st2)
      ∧ PublicContract.GetDocumentByID st2 id
          = .ok ⟨id.viaJSON, institution.viaJSON, userId.viaJSON⟩
      ∧ (id.ValidUTF8 → institution.ValidUTF8 → userId.ValidUTF8 →
          PublicContract.GetDocumentByID st2 id = .ok ⟨id, institution, userId⟩))
    ∧ (∃ pd2, PrivateContract.SavePrivateDocument stub pd id institution userId name path
          hash state = (none, pd2)
      ∧ PrivateContract.GetPrivateDocumentByID pd2 id
          = .ok ⟨id.viaJSON, institution.viaJSON, userId.viaJSON, name.viaJSON, path.viaJSON,
              hash.viaJSON, state.viaJSON⟩
      ∧ (id.ValidUTF8 → institution.ValidUTF8 → userId.ValidUTF8 → name.ValidUTF8 →
          path.ValidUTF8 → hash.ValidUTF8 → state.ValidUTF8 →
          PrivateContract.GetPrivateDocumentByID pd2 id
            = .ok ⟨id, institution, userId, name, path, hash, state⟩)) := by
  constructor
  · have h : (PublicContract.RegisterDocument stub st id institution userId).1 = none := by
      simp [PublicContract.RegisterDocument, PublicContract.PutState, putIn, hacc.1, hacc.2]
    have h2 : PublicContract.RegisterDocument stub st id institution userId
        = (none, (PublicContract.RegisterDocument stub st id institution userId).2) := by
      rw [← h]
    have hget := PublicContract.get_after_register h2
    refine ⟨_, h2, hget, ?_⟩
    intro v1 v2 v3
    have e1 : id.viaJSON = id := v1
    have e2 : institution.viaJSON = institution := v2
    have e3 : userId.viaJSON = userId := v3
    rw [hget, e1, e2, e3]
  · have h : (PrivateContract.SavePrivateDocument stub pd id institution userId name path
        hash state).1 = none := by
      simp [PrivateContract.SavePrivateDocument, PrivateContract.PutPrivateData, putIn,
        haccPrivate.1, haccPrivate.2]
    have h2 : PrivateContract.SavePrivateDocument stub pd id institution userId name path
        hash state = (none, (PrivateContract.SavePrivateDocument stub pd id institution userId
          name path hash state).2) := by
      rw [← h]
    have hget := PrivateContract.get_after_save h2
    refine ⟨_, h2, hget, ?_⟩
    intro v1 v2 v3 v4 v5 v6 v7
    have e1 : id.viaJSON = id := v1
    have e2 : institution.viaJSON = institution := v2
    have e3 : userId.viaJSON = userId := v3
    have e4 : name.viaJSON = name := v4
    have e5 : path.viaJSON = path := v5
    have e6 : hash.viaJSON = hash := v6
    have e7 : state.viaJSON = state := v7
    rw [hget, e1, e2, e3, e4, e5, e6, e7]

/-- C15 as amended, at a concrete input: d1 is registered in transaction t1 and
registered again, with another institution and user, in transaction t2; all fields are
valid UTF-8. -/
theorem C15_second_create_overwrites_witness :
    ∃ st2, PublicContract.RegisterDocument (stubAt "t2" 1700000100)
        (PublicContract.RegisterDocument (stubAt "t1" 1700000000) [] "d1" "BankA" "u1").2
        "d1" "BankZ" "u9" = (none, st2)
      ∧ PublicContract.GetDocumentByID st2 "d1"
          = .ok ⟨"d1", "BankZ", "u9"⟩
      ∧ ((GoString.ofString "d1").ValidUTF8 → (GoString.ofString "BankZ").ValidUTF8 →
          (GoString.ofString "u9").ValidUTF8 →
          PublicContract.GetDocumentByID st2 "d1" = .ok ⟨"d1", "BankZ", "u9"⟩) :=
  (C15_second_create_overwrites (stubAt "t2" 1700000100)
    (PublicContract.RegisterDocument (stubAt "t1" 1700000000) [] "d1" "BankA" "u1").2
    (PrivateContract.SavePrivateDocument (stubAt "t1" 1700000000) (fun _ => [])
      "d1" "BankA" "u1" "a.pdf" "/a" "h1" "DRAFT").2
    (PublicDocument.marshal ⟨"d1", "BankA", "u1"⟩)
    (PrivateDocument.marshal ⟨"d1", "BankA", "u1", "a.pdf", "/a", "h1", "DRAFT"⟩)
    "d1" "BankZ" "u9" "b.pdf" "/b" "h2" "FINAL"
    (by rfl) (by rfl) ⟨by rfl, by rfl⟩ ⟨by rfl, by rfl⟩).1

theorem PublicContract.auditStep_eq_public (ft fv : GoString) (start stop : Int) (value : Bytes) :
    PublicContract.auditStep ft fv start stop value
      = (PublicContract.inWindowEntry start stop value).bind fun l =>
          if ft = "documentId" then (if l.DocumentID = fv then some l else none)
          else if ft = "institution" then (if l.Institution = fv then some l else none)
          else if ft = "userId" then (if l.UserID = fv then some l else none)
          else if ft = "all" then some l
          else none := by
  unfold PublicContract.auditStep PublicContract.inWindowEntry
  rcases h : AuditLog.unmarshal value with ⟨log, ok⟩
  cases ok
  · simp
  · cases hp : parseRFC3339 log.Timestamp with
    | none => simp [hp]
    | some t =>
      by_cases hw : start ≤ t ∧ t ≤ stop
      · have h1 : ¬ (t < start ∨ stop < t) := by
          rw [not_or, not_lt, not_lt]
          exact hw
        simp [hp, hw, h1]
      · have h1 : t < start ∨ stop < t := by
          by_contra hc
          rw [not_or, not_lt, not_lt] at hc
          exact hw hc
        simp [hp, hw, h1]

theorem PrivateContract.auditStep_eq_private (ft fv : GoString) (start stop : Int)
    (value : Bytes) :
    PrivateContract.auditStep ft fv start stop value
      = (PrivateContract.inWindowEntry start stop value).bind fun l =>
          if ft = "documentId" then (if l.DocumentID = fv then some l else none)
          else if ft = "institution" then (if l.Institution = fv then some l else none)
          else if ft = "userId" then (if l.UserID = fv then some l else none)
          else if ft = "all" then some l
          else none := by
  unfold PrivateContract.auditStep PrivateContract.inWindowEntry
  rcases h : PrivateAuditLog.unmarshal value with ⟨log, ok⟩
  cases ok
  · simp
  · cases hp : parseRFC3339 log.Timestamp with
    | none => simp [hp]
    | some t =>
      by_cases hw : start ≤ t ∧ t ≤ stop
      · have h1 : ¬ (t < start ∨ stop < t) := by
          rw [not_or, not_lt, not_lt]
          exact hw
        simp [hp, hw, h1]
      · have h1 : t < start ∨ stop < t := by
          by_contra hc
          rw [not_or, not_lt, not_lt] at hc
          exact hw hc
        simp [hp, hw, h1]

theorem filterMap_bind_guard {α β : Type} (w : α → Option β) (p : β → Prop) [DecidablePred p]
    (l : List α) :
    (l.filterMap fun x => (w x).bind fun y => if p y then some y else none)
      = (l.filterMap w).filter fun y => p y := by
  induction l with
  | nil => rfl
  | cons a rest ih =>
    cases hw : w a with
    | none => simp [List.filterMap_cons, hw, ih]
    | some y =>
      by_cases hp : p y
      · simp [List.filterMap_cons, hw, hp, ih]
      · simp [List.filterMap_cons, hw, hp, ih]

theorem filterMap_bind_some {α β : Type} (w : α → Option β) (l : List α) :
    (l.filterMap fun x => (w x).bind fun y => some y) = l.filterMap w := by
  induction l with
  | nil => rfl
  | cons a rest ih =>
    cases hw : w a <;> simp [List.filterMap_cons, hw, ih]

theorem PublicContract.query_by_documentId (scan : List (GoString × Bytes)) (fv : GoString)
    (s e : Int) :
    (scan.filterMap fun item => PublicContract.auditStep "documentId" fv s e item.2)
      = (scan.filterMap fun item => PublicContract.inWindowEntry s e item.2).filter
          fun l => l.DocumentID = fv := by
  simp only [PublicContract.auditStep_eq_public, if_true]
  exact filterMap_bind_guard (fun item => PublicContract.inWindowEntry s e item.2)
    (fun l => l.DocumentID = fv) scan

theorem PublicContract.query_by_institution (scan : List (GoString × Bytes)) (fv : GoString)
    (s e : Int) :
    (scan.filterMap fun item => PublicContract.auditStep "institution" fv s e item.2)
      = (scan.filterMap fun item => PublicContract.inWindowEntry s e item.2).filter
          fun l => l.Institution = fv := by
  simp only [PublicContract.auditStep_eq_public, if_true,
    if_neg institution_ne_documentId]
  exact filterMap_bind_guard (fun item => PublicContract.inWindowEntry s e item.2)
    (fun l => l.Institution = fv) scan

theorem PublicContract.query_by_userId (scan : List (GoString × Bytes)) (fv : GoString)
    (s e : Int) :
    (scan.filterMap fun item => PublicContract.auditStep "userId" fv s e item.2)
      = (scan.filterMap fun item => PublicContract.inWindowEntry s e item.2).filter
          fun l => l.UserID = fv := by
  simp only [PublicContract.auditStep_eq_public, if_true,
    if_neg userId_ne_documentId,
    if_neg userId_ne_institution]
  exact filterMap_bind_guard (fun item => PublicContract.inWindowEntry s e item.2)
    (fun l => l.UserID = fv) scan

theorem PublicContract.query_all (scan : List (GoString × Bytes)) (fv : GoString) (s e : Int) :
    (scan.filterMap fun item => PublicContract.auditStep "all" fv s e item.2)
      = scan.filterMap fun item => PublicContract.inWindowEntry s e item.2 := by
  simp only [PublicContract.auditStep_eq_public, if_true,
    if_neg all_ne_documentId,
    if_neg all_ne_institution,
    if_neg all_ne_userId]
  exact filterMap_bind_some (fun item => PublicContract.inWindowEntry s e item.2) scan

theorem PrivateContract.query_by_documentId_private (scan : List (GoString × Bytes))
    (fv : GoString) (s e : Int) :
    (scan.filterMap fun item => PrivateContract.auditStep "documentId" fv s e item.2)
      = (scan.filterMap fun item => PrivateContract.inWindowEntry s e item.2).filter
          fun l => l.DocumentID = fv := by
  simp only [PrivateContract.auditStep_eq_private, if_true]
  exact filterMap_bind_guard (fun item => PrivateContract.inWindowEntry s e item.2)
    (fun l => l.DocumentID = fv) scan

theorem PrivateContract.query_by_institution_private (scan : List (GoString × Bytes))
    (fv : GoString) (s e : Int) :
    (scan.filterMap fun item => PrivateContract.auditStep "institution" fv s e item.2)
      = (scan.filterMap fun item => PrivateContract.inWindowEntry s e item.2).filter
          fun l => l.Institution = fv := by
  simp only [PrivateContract.auditStep_eq_private, if_true,
    if_neg institution_ne_documentId]
  exact filterMap_bind_guard (fun item => PrivateContract.inWindowEntry s e item.2)
    (fun l => l.Institution = fv) scan

theorem PrivateContract.query_by_userId_private (scan : List (GoString × Bytes)) (fv : GoString)
    (s e : Int) :
    (scan.filterMap fun item => PrivateContract.auditStep "userId" fv s e item.2)
      = (scan.filterMap fun item => PrivateContract.inWindowEntry s e item.2).filter
          fun l => l.UserID = fv := by
  simp only [PrivateContract.auditStep_eq_private, if_true,
    if_neg userId_ne_documentId,
    if_neg userId_ne_institution]
  exact filterMap_bind_guard (fun item => PrivateContract.inWindowEntry s e item.2)
    (fun l => l.UserID = fv) scan

theorem PrivateContract.query_all_private (scan : List (GoString × Bytes)) (fv : GoString)
    (s e : Int) :
    (scan.filterMap fun item => PrivateContract.auditStep "all" fv s e item.2)
      = scan.filterMap fun item => PrivateContract.inWindowEntry s e item.2 := by
  simp only [PrivateContract.auditStep_eq_private, if_true,
    if_neg all_ne_documentId,
    if_neg all_ne_institution,
    if_neg all_ne_userId]
  exact filterMap_bind_some (fun item => PrivateContract.inWindowEntry s e item.2) scan

/-- C16: in both chaincodes, for every sequence of records the audit range scan
produces, QueryAuditLogs with filterType documentId, institution or userId returns
exactly the well-formed, in-window entries of the scan whose corresponding field equals
filterValue, and with filterType all exactly the well-formed, in-window entries, in
both cases in the order of the scan (key order). The last part evaluates a ledger whose
key order is not the order of the timestamps: the entry of transaction t1, stamped
later, comes before the entry of transaction t2. -/
theorem C16_audit_query_is_filtered_scan (st : Store) (pd : PrivateData)
    (fv startDate endDate : GoString) :
    PublicContract.QueryAuditLogs st "documentId" fv startDate endDate
        = .ok (((st.range "AUDIT_" "AUDIT_z").filterMap fun item =>
            PublicContract.inWindowEntry (parseOrZero startDate) (parseOrZero endDate)
              item.2).filter fun l => l.DocumentID = fv)
    ∧ PublicContract.QueryAuditLogs st "institution" fv startDate endDate
        = .ok (((st.range "AUDIT_" "AUDIT_z").filterMap fun item =>
            PublicContract.inWindowEntry (parseOrZero startDate) (parseOrZero endDate)
              item.2).filter fun l => l.Institution = fv)
    ∧ PublicContract.QueryAuditLogs st "userId" fv startDate endDate
        = .ok (((st.range "AUDIT_" "AUDIT_z").filterMap fun item =>
            PublicContract.inWindowEntry (parseOrZero startDate) (parseOrZero endDate)
              item.2).filter fun l => l.UserID = fv)
    ∧ PublicContract.QueryAuditLogs st "all" fv startDate endDate
        = .ok ((st.range "AUDIT_" "AUDIT_z").filterMap fun item =>
            PublicContract.inWindowEntry (parseOrZero startDate) (parseOrZero endDate) item.2)
    ∧ PrivateContract.QueryAuditLogs pd "documentId" fv startDate endDate
        = .ok ((((pd "collectionAuditLogs").range "AUDIT_" "AUDIT_z").filterMap fun item =>
            PrivateContract.inWindowEntry (parseOrZero startDate) (parseOrZero endDate)
              item.2).filter fun l => l.DocumentID = fv)
    ∧ PrivateContract.QueryAuditLogs pd "institution" fv startDate endDate
        = .ok ((((pd "collectionAuditLogs").range "AUDIT_" "AUDIT_z").filterMap fun item =>
            PrivateContract.inWindowEntry (parseOrZero startDate) (parseOrZero endDate)
              item.2).filter fun l => l.Institution = fv)
    ∧ PrivateContract.QueryAuditLogs pd "userId" fv startDate endDate
        = .ok ((((pd "collectionAuditLogs").range "AUDIT_" "AUDIT_z").filterMap fun item =>
            PrivateContract.inWindowEntry (parseOrZero startDate) (parseOrZero endDate)
              item.2).filter fun l => l.UserID = fv)
    ∧ PrivateContract.QueryAuditLogs pd "all" fv startDate endDate
        = .ok (((pd "collectionAuditLogs").range "AUDIT_" "AUDIT_z").filterMap fun item =>
            PrivateContract.inWindowEntry (parseOrZero startDate) (parseOrZero endDate) item.2)
    ∧ PublicContract.QueryAuditLogs
        (PublicContract.RegisterDocument (stubAt "t2" 1700000000)
          (PublicContract.RegisterDocument (stubAt "t1" 1700000100) [] "d1" "BankA" "u1").2
          "d2" "BankA" "u1").2
        "all" "" "2023-01-01T00:00:00Z" "2024-01-01T00:00:00Z"
      = .ok [⟨"t1", "d1", "BankA", "u1", "create", "2023-11-14T22:15:00Z"⟩,
          ⟨"t2", "d2", "BankA", "u1", "create", "2023-11-14T22:13:20Z"⟩] := by
  refine ⟨?_, ?_, ?_, ?_, ?_, ?_, ?_, ?_, by rfl⟩
  · exact congrArg Except.ok (PublicContract.query_by_documentId _ fv _ _)
  · exact congrArg Except.ok (PublicContract.query_by_institution _ fv _ _)
  · exact congrArg Except.ok (PublicContract.query_by_userId _ fv _ _)
  · exact congrArg Except.ok (PublicContract.query_all _ fv _ _)
  · exact congrArg Except.ok (PrivateContract.query_by_documentId_private _ fv _ _)
  · exact congrArg Except.ok (PrivateContract.query_by_institution_private _ fv _ _)
  · exact congrArg Except.ok (PrivateContract.query_by_userId_private _ fv _ _)
  · exact congrArg Except.ok (PrivateContract.query_all_private _ fv _ _)

theorem PublicContract.auditStep_bad_public (ft fv : GoString) (s e : Int) (bad : Bytes)
    (h : (AuditLog.unmarshal bad).2 = false) :
    PublicContract.auditStep ft fv s e bad = none := by
  simp [PublicContract.auditStep, h]

theorem PrivateContract.auditStep_bad_private (ft fv : GoString) (s e : Int) (bad : Bytes)
    (h : (PrivateAuditLog.unmarshal bad).2 = false) :
    PrivateContract.auditStep ft fv s e bad = none := by
  simp [PrivateContract.auditStep, h]

/-- C17: for each of QueryByInstitution, QueryByUser, QueryPrivateByInstitution,
QueryPrivateByUser and QueryAuditLogs (both chaincodes), two ledgers whose scanned
ranges differ by one record whose bytes fail to deserialize into the record type of the
query give the same outcome, result and error alike: the malformed record is skipped
wherever it stands in the scan. -/
theorem C17_malformed_records_are_skipped (v ft fv startDate endDate key : GoString)
    (bad : Bytes) (before after : List (GoString × Bytes)) :
    (∀ st st2 : Store, (PublicDocument.unmarshal bad).2 = false →
      st.range "" "" = before ++ after → st2.range "" "" = before ++ (key, bad) :: after →
      PublicContract.QueryByInstitution st2 v = PublicContract.QueryByInstitution st v
      ∧ PublicContract.QueryByUser st2 v = PublicContract.QueryByUser st v)
    ∧ (∀ pd pd2 : PrivateData, (PrivateDocument.unmarshal bad).2 = false →
      (pd "collectionPrivateDocs").range "" "" = before ++ after →
      (pd2 "collectionPrivateDocs").range "" "" = before ++ (key, bad) :: after →
      PrivateContract.QueryPrivateByInstitution pd2 v
          = PrivateContract.QueryPrivateByInstitution pd v
      ∧ PrivateContract.QueryPrivateByUser pd2 v = PrivateContract.QueryPrivateByUser pd v)
    ∧ (∀ st st2 : Store, (AuditLog.unmarshal bad).2 = false →
      st.range "AUDIT_" "AUDIT_z" = before ++ after →
      st2.range "AUDIT_" "AUDIT_z" = before ++ (key, bad) :: after →
      PublicContract.QueryAuditLogs st2 ft fv startDate endDate
        = PublicContract.QueryAuditLogs st ft fv startDate endDate)
    ∧ (∀ pd pd2 : PrivateData, (PrivateAuditLog.unmarshal bad).2 = false →
      (pd "collectionAuditLogs").range "AUDIT_" "AUDIT_z" = before ++ after →
      (pd2 "collectionAuditLogs").range "AUDIT_" "AUDIT_z" = before ++ (key, bad) :: after →
      PrivateContract.QueryAuditLogs pd2 ft fv startDate endDate
        = PrivateContract.QueryAuditLogs pd ft fv startDate endDate) := by
  refine ⟨?_, ?_, ?_, ?_⟩
  · intro st st2 hbad h1 h2
    simp [PublicContract.QueryByInstitution, PublicContract.QueryByUser, h1, h2,
      List.filterMap_append, List.filterMap_cons, hbad]
  · intro pd pd2 hbad h1 h2
    simp [PrivateContract.QueryPrivateByInstitution, PrivateContract.QueryPrivateByUser, h1,
      h2, List.filterMap_append, List.filterMap_cons, hbad]
  · intro st st2 hbad h1 h2
    simp [PublicContract.QueryAuditLogs, h1, h2, List.filterMap_append, List.filterMap_cons,
      PublicContract.auditStep_bad_public _ _ _ _ _ hbad]
  · intro pd pd2 hbad h1 h2
    simp [PrivateContract.QueryAuditLogs, h1, h2, List.filterMap_append,
      List.filterMap_cons, PrivateContract.auditStep_bad_private _ _ _ _ _ hbad]

/-- C17 at a concrete input of the public chaincode: a ledger with the document d1
and the same ledger with bytes that are not JSON stored under d0. -/
theorem C17_malformed_records_are_skipped_witness :
    PublicContract.QueryByInstitution
        [("d0", .invalid 0), ("d1", PublicDocument.marshal ⟨"d1", "BankA", "u1"⟩)] "BankA"
      = PublicContract.QueryByInstitution
        [("d1", PublicDocument.marshal ⟨"d1", "BankA", "u1"⟩)] "BankA"
    ∧ PublicContract.QueryByUser
        [("d0", .invalid 0), ("d1", PublicDocument.marshal ⟨"d1", "BankA", "u1"⟩)] "BankA"
      = PublicContract.QueryByUser
        [("d1", PublicDocument.marshal ⟨"d1", "BankA", "u1"⟩)] "BankA" :=
  (C17_malformed_records_are_skipped "BankA" "all" "" "" "" "d0" (.invalid 0) []
    [("d1", PublicDocument.marshal ⟨"d1", "BankA", "u1"⟩)]).1
    [("d1", PublicDocument.marshal ⟨"d1", "BankA", "u1"⟩)]
    [("d0", .invalid 0), ("d1", PublicDocument.marshal ⟨"d1", "BankA", "u1"⟩)]
    (by rfl) (by rfl) (by rfl)

/-- C18: in RegisterDocument, SavePrivateDocument and UpdateDocumentState (on a stored
record), if the store rejects the document write with an error, the operation returns
that error and issues no further write: the ledger it leaves is the ledger it was
given, in every collection and at every key, the audit key AUDIT_+txID included. -/
theorem C18_rejected_write_writes_no_audit (stub : Stub) (st : Store) (pd : PrivateData)
    (documentId institution userId name path hash state newState : GoString) (e : String)
    (data : Bytes) :
    (stub.putErr "" documentId = some e →
      PublicContract.RegisterDocument stub st documentId institution userId = (some e, st))
    ∧ (stub.putErr "collectionPrivateDocs" documentId = some e →
      (PrivateContract.SavePrivateDocument stub pd documentId institution userId name path
          hash state).1 = some e
      ∧ ∀ c, (PrivateContract.SavePrivateDocument stub pd documentId institution userId name
          path hash state).2 c = pd c)
    ∧ (stub.putErr "collectionPrivateDocs" documentId = some e →
      (pd "collectionPrivateDocs").get documentId = some data →
      (PrivateContract.UpdateDocumentState stub pd documentId newState).1 = some e
      ∧ ∀ c, (PrivateContract.UpdateDocumentState stub pd documentId newState).2 c = pd c) := by
  refine ⟨?_, ?_, ?_⟩
  · intro h
    simp [PublicContract.RegisterDocument, PublicContract.PutState, putIn, h]
  · intro h
    constructor
    · simp [PrivateContract.SavePrivateDocument, PrivateContract.PutPrivateData, putIn, h]
    · intro c
      by_cases hc : c = "collectionPrivateDocs"
      · simp [PrivateContract.SavePrivateDocument, PrivateContract.PutPrivateData, putIn, h, hc]
      · simp [PrivateContract.SavePrivateDocument, PrivateContract.PutPrivateData, putIn, h, hc]
  · intro h hget
    constructor
    · simp [PrivateContract.UpdateDocumentState, PrivateContract.GetPrivateData,
        PrivateContract.PutPrivateData, putIn, h, hget]
    · intro c
      by_cases hc : c = "collectionPrivateDocs"
      · simp [PrivateContract.UpdateDocumentState, PrivateContract.GetPrivateData,
          PrivateContract.PutPrivateData, putIn, h, hget, hc]
      · simp [PrivateContract.UpdateDocumentState, PrivateContract.GetPrivateData,
          PrivateContract.PutPrivateData, putIn, h, hget, hc]

/-- C18 at a concrete input: a store that refuses every write with "store down", a
ledger holding d1 and the audit entry of an earlier transaction. -/
theorem C18_rejected_write_writes_no_audit_witness :
    PublicContract.RegisterDocument ⟨"t2", 1700000100, 0, 0, fun _ _ => some "store down"⟩
        (PublicContract.RegisterDocument (stubAt "t1" 1700000000) [] "d1" "BankA" "u1").2
        "d5" "BankB" "u2"
      = (some "store down",
          (PublicContract.RegisterDocument (stubAt "t1" 1700000000) [] "d1" "BankA" "u1").2) :=
  (C18_rejected_write_writes_no_audit
    ⟨"t2", 1700000100, 0, 0, fun _ _ => some "store down"⟩
    (PublicContract.RegisterDocument (stubAt "t1" 1700000000) [] "d1" "BankA" "u1").2
    (fun _ => []) "d5" "BankB" "u2" "" "" "" "" "" "store down" (.invalid 0)).1 (by rfl)

theorem PublicContract.auditStep_some_public {ft fv : GoString} {s e : Int} {value : Bytes}
    {l : AuditLog} (h : PublicContract.auditStep ft fv s e value = some l) :
    AuditLog.unmarshal value = (l, true)
      ∧ ∃ t : Int, parseRFC3339 l.Timestamp = some t ∧ s ≤ t ∧ t ≤ e := by
  rw [PublicContract.auditStep_eq_public] at h
  unfold PublicContract.inWindowEntry at h
  rcases hu : AuditLog.unmarshal value with ⟨log, ok⟩
  rw [hu] at h
  cases ok
  · simp at h
  · cases hp : parseRFC3339 log.Timestamp with
    | none => simp [hp] at h
    | some t =>
      by_cases hw : s ≤ t ∧ t ≤ e
      · simp only [hp, hw, and_self, if_true, Option.some_bind] at h
        have hl : log = l := by
          split_ifs at h <;> exact Option.some.inj h
        subst hl
        exact ⟨rfl, t, hp, hw⟩
      · simp [hp, hw] at h

theorem Store.mem_of_mem_range {s : Store} {a b : GoString} {kv : GoString × Bytes}
    (h : kv ∈ s.range a b) : kv ∈ s :=
  (List.mem_filter.mp h).1

theorem AuditLog.viaJSON_viaJSON_log (l : AuditLog) : l.viaJSON.viaJSON = l.viaJSON := by
  simp only [AuditLog.viaJSON, GoString.viaJSON_viaJSON]

/-- Every value of a reachable world state of the public chaincode is the encoding
of a document or of one of the audit entries written so far. -/
theorem PublicContract.Reach_values {st : Store} {logs : List AuditLog}
    (h : PublicContract.Reach st logs) :
    ∀ kv ∈ st, (∃ d : PublicDocument, kv.2 = d.marshal)
      ∨ (∃ l ∈ logs, kv.2 = l.marshal ∧ l.viaJSON = l) := by
  induction h with
  | empty => intro kv hkv; exact absurd hkv (List.not_mem_nil _)
  | register stub st st1 logs documentId institution userId _ hreg ih =>
    intro kv hkv
    rw [PublicContract.RegisterDocument_ok hreg] at hkv
    rcases Store.mem_put_cases hkv with h1 | h1
    · exact Or.inr ⟨_, List.mem_cons_self _ _, by rw [h1, AuditLog.marshal_viaJSON_log],
        AuditLog.viaJSON_viaJSON_log _⟩
    · rcases Store.mem_put_cases h1 with h2 | h2
      · exact Or.inl ⟨_, by rw [h2]⟩
      · rcases ih kv h2 with h3 | ⟨l, hl, h3⟩
        · exact Or.inl h3
        · exact Or.inr ⟨l, List.mem_cons_of_mem _ hl, h3⟩

/-- C19: in every world state of the public chaincode reachable from the empty ledger
by successful RegisterDocument calls, for every filter and every window,
QueryAuditLogs returns no error and each returned element is one of the audit entries
those calls wrote; a record written as a document, also under a key inside the scanned
range, is never returned, since it carries no timestamp. -/
theorem C19_audit_query_returns_only_written_entries (st : Store) (logs : List AuditLog)
    (ft fv startDate endDate : GoString) (hreach : PublicContract.Reach st logs) :
    ∃ rs, PublicContract.QueryAuditLogs st ft fv startDate endDate = .ok rs
      ∧ ∀ l ∈ rs, l ∈ logs := by
  refine ⟨_, rfl, ?_⟩
  intro l hl
  obtain ⟨item, hitem, hstep⟩ := List.mem_filterMap.mp hl
  obtain ⟨hdec, t, hp, _⟩ := PublicContract.auditStep_some_public hstep
  rcases PublicContract.Reach_values hreach item (Store.mem_of_mem_range hitem) with
    ⟨d, hd⟩ | ⟨l2, hl2, hd, hv⟩
  · rw [hd, AuditLog.unmarshal_document] at hdec
    have hts : l.Timestamp = "" := by
      rw [← (Prod.mk.inj hdec).1]
    have hnone : parseRFC3339 "" = none := by rfl
    rw [hts, hnone] at hp
    exact Option.noConfusion hp
  · rw [hd, AuditLog.decode_encode_log, hv] at hdec
    rw [← (Prod.mk.inj hdec).1]
    exact hl2

/-- C19 at a concrete input: the id of the registered document, AUDIT_a, lies inside
the scanned range; the query returns nothing but the audit entry of the call. -/
theorem C19_audit_query_returns_only_written_entries_witness :
    ∃ rs, PublicContract.QueryAuditLogs
        (PublicContract.RegisterDocument (stubAt "t1" 1700000000) [] "AUDIT_a" "BankA"
          "u1").2 "all" "" "2023-01-01T00:00:00Z" "2024-01-01T00:00:00Z" = .ok rs
      ∧ ∀ l ∈ rs,
          l ∈ [AuditLog.viaJSON
            ⟨"t1", "AUDIT_a", "BankA", "u1", "create", (stubAt "t1" 1700000000).timestamp⟩] :=
  C19_audit_query_returns_only_written_entries
    (PublicContract.RegisterDocument (stubAt "t1" 1700000000) [] "AUDIT_a" "BankA" "u1").2
    [AuditLog.viaJSON
      ⟨"t1", "AUDIT_a", "BankA", "u1", "create", (stubAt "t1" 1700000000).timestamp⟩]
    "all" "" "2023-01-01T00:00:00Z" "2024-01-01T00:00:00Z"
    (PublicContract.Reach.register (stubAt "t1" 1700000000) []
      (PublicContract.RegisterDocument (stubAt "t1" 1700000000) [] "AUDIT_a" "BankA" "u1").2
      [] "AUDIT_a" "BankA" "u1" PublicContract.Reach.empty (by rfl))

end CertiChain
